import Mathlib

/-!
Verification development for the Matiks social-media monitor's adaptive
ingestion engine.  The TypeScript sources are shallowly embedded: pure
functions become Lean functions, stateful components become explicit state
passing, JavaScript numbers are modelled by `ℚ` (rationals), timestamps by
epoch milliseconds (`ℚ` for the rate limiter, `ℕ` for item dates), and the
wall clock (`Date.now()`) becomes an explicit argument.  Fallible and
asynchronous code is modelled by explicit outcome values.
-/

namespace Matiks

/-! ## JavaScript string helpers

`jsIncludes s pat` models `s.includes(pat)` on already-constructed strings:
an occurrence of `pat` as a contiguous substring of `s` (the empty pattern
always matches, as in JavaScript). -/

namespace JsStr

/-- If `pat` is a literal prefix of `cs`, return the remainder. -/
def charsMatch : List Char → List Char → Option (List Char)
  | [], cs => some cs
  | _ :: _, [] => none
  | a :: rest, c :: cs => if a == c then charsMatch rest cs else none

/-- Does `pat` occur as a contiguous sublist of the second argument? -/
def subOccurs (pat : List Char) : List Char → Bool
  | [] => (charsMatch pat []).isSome
  | c :: cs => (charsMatch pat (c :: cs)).isSome || subOccurs pat cs

/-- JavaScript `String.prototype.includes`. -/
def jsIncludes (s pat : String) : Bool :=
  subOccurs pat.toList s.toList

/-- JavaScript `\s` (ASCII part), also the class trimmed by `trim()`. -/
def isSpaceChar (c : Char) : Bool :=
  c == ' ' || c == '\t' || c == '\n' || c == '\r' || c == '\x0b' || c == '\x0c'

/-- `String.prototype.toLowerCase` (ASCII case folding). -/
def toLower (s : String) : String := String.mk (s.data.map Char.toLower)

/-- `String.prototype.toUpperCase` (ASCII case folding). -/
def toUpper (s : String) : String := String.mk (s.data.map Char.toUpper)

/-- Emptiness of a string (JavaScript falsiness of a string value). -/
def isEmptyStr (s : String) : Bool := s.data.isEmpty

/-- `String.prototype.trim`. -/
def trim (s : String) : String :=
  String.mk (((s.data.dropWhile isSpaceChar).reverse.dropWhile isSpaceChar).reverse)

/-- `String.prototype.substring(0, n)`. -/
def takeChars (n : ℕ) (s : String) : String := String.mk (s.data.take n)

/-- `String.prototype.startsWith`. -/
def jsStartsWith (s pat : String) : Bool := (charsMatch pat.data s.data).isSome

/-- Fueled global replacement; the fuel strictly exceeds the subject length,
so it never runs out for a non-empty pattern. -/
def replaceFuel (pat rep : List Char) : ℕ → List Char → List Char
  | 0, cs => cs
  | _ + 1, [] => []
  | fuel + 1, c :: cs =>
      match charsMatch pat (c :: cs) with
      | some rest => rep ++ replaceFuel pat rep fuel rest
      | none => c :: replaceFuel pat rep fuel cs

/-- `String.prototype.replace` with a global pattern. -/
def replaceAll (s pat rep : String) : String :=
  if pat.data.isEmpty then s
  else String.mk (replaceFuel pat.data rep.data (s.data.length + 1) s.data)

/-- `String.prototype.split(sep)` for a single separator character. -/
def splitOnChar (sep : Char) : List Char → List (List Char)
  | [] => [[]]
  | c :: cs =>
      if c == sep then [] :: splitOnChar sep cs
      else
        match splitOnChar sep cs with
        | [] => [[c]]
        | t :: ts => (c :: t) :: ts

end JsStr

/-! ## Rate Governor: `src/core/rateLimit.ts`

Per-source token-bucket state.  `rateLimit` (the acquire path) is modelled
with two explicit clock readings: `t0` is `Date.now()` at entry and `t1` is
the clock after the (possible) wait; the well-timedness predicate records
that the clock is monotone and that `setTimeout(waitTime)` suspends for at
least `waitTime` milliseconds. -/

namespace RateLimitMod

structure RateLimitState where
  tokens : ℚ
  lastRefill : ℚ
  maxTokens : ℚ
  refillRate : ℚ
  backoffMultiplier : ℚ
  lastRequest : ℚ
deriving Repr, DecidableEq

/-- `getOrCreateLimiter`: fresh per-platform state (`rpm` is the configured
requests-per-minute budget, `now` the creation time). -/
def getOrCreateLimiter (rpm : ℚ) (now : ℚ) : RateLimitState :=
  { tokens := 5
    lastRefill := now
    maxTokens := 10
    refillRate := rpm / 60
    backoffMultiplier := 1
    lastRequest := 0 }

/-- `refillTokens`: add `elapsed_seconds * refillRate`, capped at `maxTokens`. -/
def refillTokens (s : RateLimitState) (now : ℚ) : RateLimitState :=
  { s with
    tokens := min s.maxTokens (s.tokens + (now - s.lastRefill) / 1000 * s.refillRate)
    lastRefill := now }

/-- The wait computed inside `rateLimit` when fewer than one token is left:
`(tokensNeeded / refillRate) * 1000 * backoffMultiplier` milliseconds. -/
def waitTimeMs (s : RateLimitState) : ℚ :=
  (1 - s.tokens) / s.refillRate * 1000 * s.backoffMultiplier

/-- The state reached inside `rateLimit` just before the token is consumed:
refill at entry time `t0`; if fewer than one token is left, wait and refill
again at time `t1`. -/
def rateLimitWaitStage (s : RateLimitState) (t0 t1 : ℚ) : RateLimitState :=
  if (refillTokens s t0).tokens < 1 then refillTokens (refillTokens s t0) t1
  else refillTokens s t0

/-- `rateLimit` (the token-consuming acquire).  `t0` is the clock at entry,
`t1` the clock after the wait branch. -/
def rateLimitAcq (s : RateLimitState) (t0 t1 : ℚ) : RateLimitState :=
  { rateLimitWaitStage s t0 t1 with
    tokens := (rateLimitWaitStage s t0 t1).tokens - 1
    lastRequest := t1 }

/-- `reportSuccess`: geometric decay of the backoff multiplier toward 1. -/
def reportSuccess (s : RateLimitState) : RateLimitState :=
  { s with backoffMultiplier := max 1 (s.backoffMultiplier * (9 / 10)) }

/-- `reportFailure`: double the backoff multiplier (capped at 10) and drain
the bucket. -/
def reportFailure (s : RateLimitState) : RateLimitState :=
  { s with
    backoffMultiplier := min 10 (s.backoffMultiplier * 2)
    tokens := 0 }

/-- One observable operation on a limiter state. -/
inductive RLOp where
  | refillAt (now : ℚ)
  | acquire (t0 t1 : ℚ)
  | success
  | failure
deriving Repr, DecidableEq

def rlStep (s : RateLimitState) : RLOp → RateLimitState
  | .refillAt now => refillTokens s now
  | .acquire t0 t1 => rateLimitAcq s t0 t1
  | .success => reportSuccess s
  | .failure => reportFailure s

/-- Timing side conditions of one operation: the clock never runs backwards,
and the acquire's `setTimeout` suspends for at least the computed wait. -/
def rlWellTimed (s : RateLimitState) : RLOp → Prop
  | .refillAt now => s.lastRefill ≤ now
  | .acquire t0 t1 =>
      s.lastRefill ≤ t0 ∧ t0 ≤ t1 ∧
        ((refillTokens s t0).tokens < 1 →
          t0 + waitTimeMs (refillTokens s t0) ≤ t1)
  | .success => True
  | .failure => True

def rlRun (s : RateLimitState) : List RLOp → RateLimitState
  | [] => s
  | op :: ops => rlRun (rlStep s op) ops

def rlValid (s : RateLimitState) : List RLOp → Prop
  | [] => True
  | op :: ops => rlWellTimed s op ∧ rlValid (rlStep s op) ops

/-- State invariant: bucket within bounds, sane configuration, backoff in
`[1,10]`. -/
def rlInv (s : RateLimitState) : Prop :=
  0 ≤ s.tokens ∧ s.tokens ≤ s.maxTokens ∧ 1 ≤ s.maxTokens ∧
    0 < s.refillRate ∧ 1 ≤ s.backoffMultiplier ∧ s.backoffMultiplier ≤ 10

end RateLimitMod

/-! ## Reddit scraper's in-class rate limiter: `ProductionRateLimiter`
(`src/scrapers/reddit.ts`). -/

namespace RedditLim

structure ProductionRateLimiter where
  tokens : ℚ
  maxTokens : ℚ
  refillRate : ℚ
  lastRefill : ℚ
  backoffMultiplier : ℚ
  consecutiveErrors : ℕ
deriving Repr, DecidableEq

/-- The constructor: burst capacity `ceil(rpm / 2)`, bucket initially full. -/
def mkLimiter (requestsPerMinute : ℚ) (now : ℚ) : ProductionRateLimiter :=
  { tokens := ((⌈requestsPerMinute / 2⌉ : ℤ) : ℚ)
    maxTokens := ((⌈requestsPerMinute / 2⌉ : ℤ) : ℚ)
    refillRate := requestsPerMinute / 60
    lastRefill := now
    backoffMultiplier := 1
    consecutiveErrors := 0 }

def refillTokens (p : ProductionRateLimiter) (now : ℚ) : ProductionRateLimiter :=
  { p with
    tokens := min p.maxTokens (p.tokens + (now - p.lastRefill) / 1000 * p.refillRate)
    lastRefill := now }

/-- State just before the clamped token consumption in `acquire`. -/
def acquireWaitStage (p : ProductionRateLimiter) (t0 t1 : ℚ) : ProductionRateLimiter :=
  if (refillTokens p t0).tokens < 1 then refillTokens (refillTokens p t0) t1
  else refillTokens p t0

/-- `acquire`: refill, possibly wait and refill again, then consume one token
clamped at zero. -/
def acquire (p : ProductionRateLimiter) (t0 t1 : ℚ) : ProductionRateLimiter :=
  { acquireWaitStage p t0 t1 with
    tokens := max 0 ((acquireWaitStage p t0 t1).tokens - 1) }

def onSuccess (p : ProductionRateLimiter) : ProductionRateLimiter :=
  { p with
    consecutiveErrors := 0
    backoffMultiplier := max 1 (p.backoffMultiplier * (9 / 10)) }

def onRateLimit (p : ProductionRateLimiter) : ProductionRateLimiter :=
  { p with
    consecutiveErrors := p.consecutiveErrors + 1
    backoffMultiplier := min 10 (p.backoffMultiplier * 2)
    tokens := 0 }

def getBackoffTime (p : ProductionRateLimiter) : ℚ :=
  min 30000 (2000 * 2 ^ p.consecutiveErrors)

inductive PLOp where
  | refillAt (now : ℚ)
  | acquireAt (t0 t1 : ℚ)
  | success
  | rateLimited
deriving Repr, DecidableEq

def plStep (p : ProductionRateLimiter) : PLOp → ProductionRateLimiter
  | .refillAt now => refillTokens p now
  | .acquireAt t0 t1 => acquire p t0 t1
  | .success => onSuccess p
  | .rateLimited => onRateLimit p

/-- Monotone-clock side conditions (the clamped consumption needs no wait
bound for safety). -/
def plWellTimed (p : ProductionRateLimiter) : PLOp → Prop
  | .refillAt now => p.lastRefill ≤ now
  | .acquireAt t0 t1 => p.lastRefill ≤ t0 ∧ t0 ≤ t1
  | .success => True
  | .rateLimited => True

def plRun (p : ProductionRateLimiter) : List PLOp → ProductionRateLimiter
  | [] => p
  | op :: ops => plRun (plStep p op) ops

def plValid (p : ProductionRateLimiter) : List PLOp → Prop
  | [] => True
  | op :: ops => plWellTimed p op ∧ plValid (plStep p op) ops

def plInv (p : ProductionRateLimiter) : Prop :=
  0 ≤ p.tokens ∧ p.tokens ≤ p.maxTokens ∧ 1 ≤ p.maxTokens ∧
    0 < p.refillRate ∧ 1 ≤ p.backoffMultiplier ∧ p.backoffMultiplier ≤ 10

end RedditLim

/-! ## Configuration snapshot (`src/config.ts`)

Only the fields the relevance filter and scrapers consult.  The app-id
fields are plain strings (the loader always yields a string, possibly
empty); JavaScript truthiness on them is emptiness. -/

structure Config where
  searchTerms : List String
  brandRequiredTerms : List String
  brandStrict : Bool
  brandBalanced : Bool
  brandSubreddits : List String
  playstoreAppId : String
  appstoreAppId : String
deriving Repr, DecidableEq

/-- The configuration produced by `config.ts` when no environment variable
overrides a default. -/
def defaultConfig : Config :=
  { searchTerms := ["matiks"]
    brandRequiredTerms := ["matiks.in"]
    brandStrict := false
    brandBalanced := true
    brandSubreddits := ["matiks"]
    playstoreAppId := "com.matiks.app"
    appstoreAppId := "123456789" }

/-! ## Relevance filter: `src/core/brandFilter.ts` -/

namespace Brand

/-- `Array.from(new Set(xs))`: deduplicate keeping first occurrences. -/
def jsSetDedupAux (seen : List String) : List String → List String
  | [] => []
  | x :: xs =>
      if seen.contains x then jsSetDedupAux seen xs
      else x :: jsSetDedupAux (seen ++ [x]) xs

def jsSetDedup (l : List String) : List String := jsSetDedupAux [] l

/-- `getBrandAnchors`: trimmed non-empty required terms, plus app-id-derived
anchors for each configured marketplace id. -/
def getBrandAnchors (cfg : Config) : List String :=
  let fromTerms := (cfg.brandRequiredTerms.map JsStr.trim).filter (fun t => !(JsStr.isEmptyStr t))
  let fromPlay :=
    if JsStr.isEmptyStr cfg.playstoreAppId then []
    else [cfg.playstoreAppId,
      "play.google.com/store/apps/details?id=" ++ cfg.playstoreAppId]
  let fromApp :=
    if JsStr.isEmptyStr cfg.appstoreAppId then []
    else ["id" ++ cfg.appstoreAppId, "apps.apple.com/app/id" ++ cfg.appstoreAppId]
  jsSetDedup (fromTerms ++ fromPlay ++ fromApp)

/-- `getStrongBrandAnchors`: anchors that look like a domain, path or app
identifier. -/
def getStrongBrandAnchors (cfg : Config) : List String :=
  (getBrandAnchors cfg).filter (fun term =>
    let normalized := JsStr.toLower term
    JsStr.jsIncludes normalized "." || JsStr.jsIncludes normalized "/" ||
      JsStr.jsStartsWith normalized "id" || JsStr.jsIncludes normalized "play.google.com" ||
      JsStr.jsIncludes normalized "apps.apple.com")

/-- The final fallback of `matchesBrand`: generic search terms. -/
def searchFallback (cfg : Config) (haystack : String) : Bool :=
  let search := (cfg.searchTerms.map JsStr.toLower).filter (fun t => !(JsStr.isEmptyStr t))
  if !search.isEmpty then search.any (fun t => JsStr.jsIncludes haystack t)
  else false

/-- `matchesBrand` with its early-return chain: strong anchors (strict mode),
then plain anchors, then generic search terms. -/
def matchesBrand (cfg : Config) (text : String) : Bool :=
  if JsStr.isEmptyStr text then false
  else
    let haystack := JsStr.toLower text
    if cfg.brandStrict then
      let strong := ((getStrongBrandAnchors cfg).map JsStr.toLower).filter (fun t => !(JsStr.isEmptyStr t))
      if !strong.isEmpty then strong.any (fun t => JsStr.jsIncludes haystack t)
      else
        let requiredFallback :=
          ((getBrandAnchors cfg).map JsStr.toLower).filter (fun t => !(JsStr.isEmptyStr t))
        if !requiredFallback.isEmpty then
          requiredFallback.any (fun t => JsStr.jsIncludes haystack t)
        else searchFallback cfg haystack
    else
      let required := ((getBrandAnchors cfg).map JsStr.toLower).filter (fun t => !(JsStr.isEmptyStr t))
      if !required.isEmpty then required.any (fun t => JsStr.jsIncludes haystack t)
      else searchFallback cfg haystack

/-- `matchesBrandBalanced`: always accept a `matchesBrand` hit; otherwise
require the bare brand keyword plus one of the context keywords. -/
def matchesBrandBalanced (cfg : Config) (text : String)
    (contextKeywords : List String) : Bool :=
  if JsStr.isEmptyStr text then false
  else
    let haystack := JsStr.toLower text
    if matchesBrand cfg haystack then true
    else if !(JsStr.jsIncludes haystack "matiks") then false
    else contextKeywords.any (fun keyword => JsStr.jsIncludes haystack (JsStr.toLower keyword))

end Brand

/-! ## A small regular-expression model

The reddit scraper's `excludePatterns` are case-insensitive regular
expressions built only from literal words, the whitespace repetition
`\s*`, one optional separator class `[\-\s]?`, alternation and the word
boundary `\b`.  `Pat` captures one alternative: an optional left boundary,
a sequence of pieces, an optional right boundary; a regular expression is a
list of alternatives and `reTest` is `RegExp.prototype.test` on the
lower-cased subject. -/

namespace Re

/-- JavaScript word character (`\w`). -/
def isWordChar (c : Char) : Bool := c.isAlphanum || c == '_'

/-- JavaScript whitespace (`\s`, the ASCII part). -/
def isSpaceChar (c : Char) : Bool :=
  c == ' ' || c == '\t' || c == '\n' || c == '\r' || c == '\x0b' || c == '\x0c'

inductive Piece where
  | word (w : String)
  | ws
  | optSep
deriving Repr, DecidableEq

structure Pat where
  lb : Bool
  pieces : List Piece
  rb : Bool
deriving Repr, DecidableEq

/-- Match a piece sequence at the head of the text, returning the rest. -/
def matchPieces : List Piece → List Char → Option (List Char)
  | [], cs => some cs
  | .word w :: ps, cs =>
      match JsStr.charsMatch w.toList cs with
      | some rest => matchPieces ps rest
      | none => none
  | .ws :: ps, cs => matchPieces ps (cs.dropWhile isSpaceChar)
  | .optSep :: ps, cs =>
      match cs with
      | [] => matchPieces ps []
      | c :: cs' =>
          if c == '-' || isSpaceChar c then
            match matchPieces ps cs' with
            | some rest => some rest
            | none => matchPieces ps (c :: cs')
          else matchPieces ps (c :: cs')

def boundaryL (required : Bool) (prev : Option Char) : Bool :=
  !required ||
    (match prev with
     | none => true
     | some c => !isWordChar c)

def boundaryR (required : Bool) (rest : List Char) : Bool :=
  !required ||
    (match rest with
     | [] => true
     | c :: _ => !isWordChar c)

def patAt (p : Pat) (prev : Option Char) (cs : List Char) : Bool :=
  boundaryL p.lb prev &&
    (match matchPieces p.pieces cs with
     | some rest => boundaryR p.rb rest
     | none => false)

def patScan (p : Pat) : Option Char → List Char → Bool
  | prev, [] => patAt p prev []
  | prev, c :: cs => patAt p prev (c :: cs) || patScan p (some c) cs

/-- `re.test(s)` for an alternation of `Pat`s, case-insensitively. -/
def reTest (alts : List Pat) (s : String) : Bool :=
  alts.any (fun p => patScan p none (JsStr.toLower s).data)

def mkPat (lb : Bool) (pieces : List Piece) (rb : Bool) : Pat := ⟨lb, pieces, rb⟩

/-- `\bw\b` for a literal word. -/
def wordPat (w : String) : Pat := { lb := true, pieces := [Piece.word w], rb := true }

/-- `\bw1\s*w2\s*...\b`. -/
def phrasePat (ws : List String) : Pat :=
  { lb := true, pieces := List.intersperse Piece.ws (ws.map Piece.word), rb := true }

end Re

/-! ## Reddit scraper relevance data (`src/scrapers/reddit.ts`) -/

namespace Reddit

/-- The `excludeSubreddits` set. -/
def excludeSubreddits : List String :=
  ["philippines", "phr4r", "casualph", "alasjuicy", "phinvest", "phcareers",
   "phgonewild", "phclassifieds", "offmychestph", "phremix", "phmoneysaving"]

/-- `brandSubreddits`, lower-cased and non-empty, derived from configuration. -/
def brandSubredditsOf (cfg : Config) : List String :=
  (cfg.brandSubreddits.map JsStr.toLower).filter (fun s => !(JsStr.isEmptyStr s))

/-- The `contextKeywords` list used in balanced mode. -/
def contextKeywords : List String :=
  ["app", "game", "math", "mental", "brain", "puzzle", "duel", "streak",
   "android", "ios", "download", "play store", "app store", "mobile",
   "arithmetic", "calculation", "speed", "training", "challenge", "leaderboard",
   "score", "level", "addicted", "playing", "installed", "tried", "recommended"]

/-- The eight `excludePatterns` regular expressions, as `Re` alternations. -/
def excludePatterns : List (String → Bool) :=
  [ Re.reTest (["pinoy", "pinay", "tagalog", "pilipinas", "philippines",
      "filipino", "filipina"].map Re.wordPat),
    Re.reTest (["kuya", "ate", "bata", "galing", "sarap", "talaga", "kasi",
      "parang", "yung", "naman", "lang", "dito", "tayo", "siya", "basta",
      "orens", "pogi"].map Re.wordPat),
    Re.reTest ((["pupcet", "pupc", "pup", "ust", "dlsu", "admu",
      "ateneo"].map Re.wordPat) ++ [Re.phrasePat ["la", "salle"]]),
    Re.reTest (["dribble", "shoot", "shot", "pass", "ball", "basketball",
      "hoop", "three", "score"].map (fun w => Re.phrasePat ["matik", w])),
    Re.reTest ((["tattoo", "tattooist", "inked", "ink"].map Re.wordPat) ++
      [Re.phrasePat ["ritual", "tattoo"], Re.phrasePat ["matt", "matik"]]),
    Re.reTest ([Re.mkPat true
        [Re.Piece.word "counter", Re.Piece.optSep, Re.Piece.word "strike"] true,
      Re.wordPat "csgo", Re.wordPat "cs2",
      Re.phrasePat ["hunger", "games", "server"], Re.wordPat "thorius"]),
    Re.reTest ([Re.mkPat true [Re.Piece.word "matikane"] false,
      Re.mkPat true [Re.Piece.word "matikaru"] false,
      Re.mkPat true [Re.Piece.word "matikako"] false,
      Re.mkPat true [Re.Piece.word "matikami"] false,
      Re.mkPat false [Re.Piece.word "fukuki"] false,
      Re.mkPat false [Re.Piece.word "lunaticmons"] true]),
    Re.reTest ([Re.phrasePat ["dream", "school"]] ++
      (["horoscope", "zodiac", "astrology", "superstition"].map Re.wordPat)) ]

/-- The interpolated haystack `${text1} ${text2} ${url ?? ''}` lower-cased. -/
def combinedText (text1 text2 : String) (url : Option String) : String :=
  JsStr.toLower (text1 ++ " " ++ text2 ++ " " ++ url.getD "")

/-- `isRelevant`: brand-subreddit override, subreddit exclusion, then the
configured matching mode followed (outside strict mode) by the exclusion
patterns. -/
def isRelevant (cfg : Config) (text1 text2 subreddit : String)
    (url : Option String) : Bool :=
  let sub := JsStr.toLower subreddit
  if (brandSubredditsOf cfg).contains sub then true
  else if excludeSubreddits.contains sub then false
  else
    let combined := combinedText text1 text2 url
    if cfg.brandStrict then Brand.matchesBrand cfg combined
    else
      let ok :=
        if cfg.brandBalanced then Brand.matchesBrandBalanced cfg combined contextKeywords
        else Brand.matchesBrand cfg combined
      if !ok then false
      else if excludePatterns.any (fun p => p combined) then false
      else true

end Reddit

/-! ## Sentiment pipeline: `src/pipeline/sentiment.ts`

`analyzeSentiment` wraps the third-party `sentiment` analyzer.  The
analyzer's documented semantics are embedded: lower-case and tokenize the
text, sum the lexicon weight of every token (the configured `extras`,
here `socialLexicon` from `src/pipeline/lexicon.ts`, override the base
AFINN table), and report `comparative = score / tokenCount`.
`afinnFragment` is a finite fragment of the package's AFINN data,
sufficient for every text analyzed in this development (out-of-vocabulary
tokens score 0, as in the package); `analyzeSentimentWith` keeps the base
table as a parameter so that independence from it can be stated. -/

namespace Sentiment

/-- The word-keyed entries of `socialLexicon` (`src/pipeline/lexicon.ts`).
The emoji-keyed entries are elided: the tokenizer never produces them as
tokens. -/
def socialLexicon : List (String × Int) :=
  [("fire", 3), ("lit", 3), ("based", 2), ("goat", 4), ("trash", -3),
   ("mid", -1), ("cringe", -2), ("scam", -4), ("rug", -4)]

/-- A fragment of the `sentiment` package's AFINN table. -/
def afinnFragment : List (String × Int) :=
  [("good", 3), ("great", 3), ("superb", 5), ("bad", -3), ("awful", -3),
   ("love", 3), ("hate", -3)]

/-- Lexicon lookup; 0 for out-of-vocabulary tokens. -/
def lookupLex (lex : List (String × Int)) (w : String) : Int :=
  match lex.find? (fun p => p.1 == w) with
  | some p => p.2
  | none => 0

/-- The analyzer's tokenizer: lower-case, strip punctuation, split on
whitespace. -/
def tokenize (s : String) : List String :=
  ((JsStr.splitOnChar ' '
      ((JsStr.toLower s).data.map
        (fun c => if c.isAlphanum || c == ' ' || c == '-' then c else ' '))).filter
    (fun t => !t.isEmpty)).map String.mk

inductive Label where
  | positive
  | neutral
  | negative
deriving Repr, DecidableEq

def Label.str : Label → String
  | .positive => "positive"
  | .neutral => "neutral"
  | .negative => "negative"

structure SentimentResult where
  score : ℚ
  label : Label
  confidence : ℚ
deriving Repr, DecidableEq

/-- `Number(x.toFixed(3))`: round to three decimal places (half away from
zero). -/
def roundTo3 (q : ℚ) : ℚ :=
  if q < 0 then -(((⌊(-q) * 1000 + 1 / 2⌋ : ℤ) : ℚ) / 1000)
  else (((⌊q * 1000 + 1 / 2⌋ : ℤ) : ℚ) / 1000)

/-- `analyzeSentiment`, with the analyzer's base lexicon as a parameter.
`none` models `null`/`undefined` input. -/
def analyzeSentimentWith (base : List (String × Int)) (text : Option String) :
    SentimentResult :=
  match text with
  | none => ⟨0, Label.neutral, 0⟩
  | some t =>
      if JsStr.isEmptyStr t || JsStr.isEmptyStr (JsStr.trim t) then ⟨0, Label.neutral, 0⟩
      else
        let toks := tokenize t
        let sc : Int := (toks.map (lookupLex (socialLexicon ++ base))).foldl (· + ·) 0
        let comparative : ℚ := if toks.length = 0 then 0 else (sc : ℚ) / (toks.length : ℚ)
        let normalized : ℚ := if 5 < sc then 1 else if sc < -5 then -1 else comparative
        let label :=
          if (1 : ℚ) / 10 ≤ normalized then Label.positive
          else if normalized ≤ -((1 : ℚ) / 10) then Label.negative
          else Label.neutral
        ⟨roundTo3 normalized, label,
          min 1 (|normalized| + (toks.length : ℚ) * (1 / 20))⟩

/-- `analyzeSentiment` as shipped (concrete lexicon). -/
def analyzeSentiment (text : Option String) : SentimentResult :=
  analyzeSentimentWith afinnFragment text

end Sentiment

/-! ## Cursor store: `src/db/schema.ts`

`updateScrapeCursor` is the SQL upsert: every call rewrites the whole row,
setting `last_scraped_at` (and `updated_at`, elided) to `datetime('now')`
and the other two columns to exactly the passed values (`NULL` when the
argument is omitted). -/

namespace Db

structure ScrapeCursor where
  platform : String
  last_scraped_at : ℕ
  last_item_date : Option ℕ
  last_item_ids : Option (List String)
deriving Repr, DecidableEq

/-- `updateScrapeCursor(platform, lastItemDate?, lastItemIds?)` executed at
time `now`: the row stored afterwards. -/
def updateScrapeCursor (platform : String) (now : ℕ) (lastItemDate : Option ℕ)
    (lastItemIds : Option (List String)) : ScrapeCursor :=
  { platform := platform
    last_scraped_at := now
    last_item_date := lastItemDate
    last_item_ids := lastItemIds }

/-- Review row of the `reviews` table (fields produced by the scrapers). -/
structure Review where
  platform_id : ℕ
  external_id : String
  author : String
  rating : Int
  title : Option String
  content : String
  app_version : Option String
  helpful_count : Int
  developer_reply : Option String
  sentiment_score : Option ℚ
  sentiment_label : Option String
  review_date : ℕ
deriving Repr, DecidableEq

/-- Platform identifiers (`PLATFORMS`); the exact numeric values are
irrelevant to every claim. -/
def redditPlatformId : ℕ := 1
def playstorePlatformId : ℕ := 2
def appstorePlatformId : ℕ := 3

/-- Stable insertion sort by `review_date`, newest first — the
`sort((a, b) => dateB - dateA)` used before slicing recent ids. -/
def insertByDateDesc (r : Review) : List Review → List Review
  | [] => [r]
  | x :: xs =>
      if r.review_date > x.review_date then r :: x :: xs
      else x :: insertByDateDesc r xs

def sortByDateDesc : List Review → List Review
  | [] => []
  | x :: xs => insertByDateDesc x (sortByDateDesc xs)

end Db

/-! ## Reddit scraper: items and the dedup ledger
(`src/scrapers/reddit.ts`) -/

namespace Reddit

/-- A raw reddit post (`RedditPost`); `created_utc` is epoch seconds, with
`0` modelling a missing (falsy) value. -/
structure RedditPost where
  id : String
  name : String
  title : String
  author : String
  subreddit : String
  permalink : String
  selftext : String
  score : Int
  num_comments : Int
  created_utc : ℕ
  url : Option String
  previewUrl : Option String
deriving Repr, DecidableEq

/-- A raw reddit comment (`RedditComment`). -/
structure RedditComment where
  id : String
  name : String
  author : String
  body : String
  score : Int
  created_utc : ℕ
  permalink : String
  subreddit : String
deriving Repr, DecidableEq

/-- Mention row of the `mentions` table; `created_at` is epoch ms. -/
structure Mention where
  platform_id : ℕ
  external_id : String
  author : String
  author_url : Option String
  content : String
  url : String
  engagement_likes : Int
  engagement_comments : Int
  engagement_shares : Int
  sentiment_score : Option ℚ
  sentiment_label : Option String
  created_at : ℕ
deriving Repr, DecidableEq

/-- JavaScript `a || b` on strings. -/
def jsOrStr (a b : String) : String := if JsStr.isEmptyStr a then b else a

/-- `transformPost` (`now` is the clock, for the missing-date fallback). -/
def transformPost (now : ℕ) (post : RedditPost) : Mention :=
  let content0 := post.title
  let content1 :=
    if !(JsStr.isEmptyStr post.selftext) && post.selftext != "[removed]"
        && post.selftext != "[deleted]" then
      content0 ++ "\n\n" ++ post.selftext
    else content0
  let content2 :=
    match post.previewUrl with
    | some u => content1 ++ "\n\n" ++ JsStr.replaceAll u "&amp;" "&"
    | none => content1
  { platform_id := Db.redditPlatformId
    external_id := post.name
    author := jsOrStr post.author "[deleted]"
    author_url :=
      if !(JsStr.isEmptyStr post.author) && post.author != "[deleted]" then
        some ("https://reddit.com/u/" ++ post.author)
      else none
    content := JsStr.trim content2
    url :=
      if JsStr.jsStartsWith post.permalink "http" then post.permalink
      else "https://reddit.com" ++ post.permalink
    engagement_likes := post.score
    engagement_comments := post.num_comments
    engagement_shares := 0
    sentiment_score := none
    sentiment_label := none
    created_at := (if post.created_utc = 0 then now / 1000 else post.created_utc) * 1000 }

/-- `transformComment`. -/
def transformComment (now : ℕ) (comment : RedditComment) : Mention :=
  { platform_id := Db.redditPlatformId
    external_id := comment.name
    author := jsOrStr comment.author "[deleted]"
    author_url :=
      if !(JsStr.isEmptyStr comment.author) && comment.author != "[deleted]" then
        some ("https://reddit.com/u/" ++ comment.author)
      else none
    content := JsStr.trim comment.body
    url :=
      if JsStr.jsStartsWith comment.permalink "http" then comment.permalink
      else "https://reddit.com" ++ comment.permalink
    engagement_likes := comment.score
    engagement_comments := 0
    engagement_shares := 0
    sentiment_score := none
    sentiment_label := none
    created_at := (if comment.created_utc = 0 then now / 1000 else comment.created_utc) * 1000 }

structure ScrapeStats where
  apiCalls : ℕ
  rateLimitHits : ℕ
  postsFound : ℕ
  commentsFound : ℕ
  duplicatesSkipped : ℕ
  filteredOut : ℕ
  saved : ℕ
deriving Repr, DecidableEq

/-- The scraper's mutable per-run state touched by `addPost`/`addComment`. -/
structure RedditState where
  seenIds : List String
  seenContent : List String
  stats : ScrapeStats
  buffer : List Mention
deriving Repr, DecidableEq

/-- The per-run fresh state built in `run()`. -/
def initialRedditState : RedditState :=
  { seenIds := []
    seenContent := []
    stats := ⟨0, 0, 0, 0, 0, 0, 0⟩
    buffer := [] }

/-- The post content fingerprint: `` `${title}|${author}`.toLowerCase() ``. -/
def postContentKey (post : RedditPost) : String :=
  JsStr.toLower (post.title ++ "|" ++ post.author)

/-- The comment content fingerprint:
`` `comment|${body.substring(0,100)}|${author}`.toLowerCase() ``. -/
def commentContentKey (comment : RedditComment) : String :=
  JsStr.toLower ("comment|" ++ JsStr.takeChars 100 comment.body ++ "|" ++ comment.author)

/-- The `urlHint` argument of `isRelevant` in `addPost`:
`post.url || post.permalink || ''`. -/
def postUrlHint (post : RedditPost) : String :=
  jsOrStr (post.url.getD "") (jsOrStr post.permalink "")

/-- `addPost`: dedup by native id, then by fingerprint, then the relevance
gate; record both keys on acceptance.  Returns the new state and whether
the post was accepted. -/
def addPost (cfg : Config) (now : ℕ) (st : RedditState) (post : RedditPost) :
    RedditState × Bool :=
  if JsStr.isEmptyStr post.name then (st, false)
  else if st.seenIds.contains post.name then
    ({ st with stats := { st.stats with duplicatesSkipped := st.stats.duplicatesSkipped + 1 } },
      false)
  else if st.seenContent.contains (postContentKey post) then
    ({ st with stats := { st.stats with duplicatesSkipped := st.stats.duplicatesSkipped + 1 } },
      false)
  else if !isRelevant cfg post.title post.selftext post.subreddit (some (postUrlHint post)) then
    ({ st with stats := { st.stats with filteredOut := st.stats.filteredOut + 1 } }, false)
  else
    ({ st with
        seenIds := st.seenIds ++ [post.name]
        seenContent := st.seenContent ++ [postContentKey post]
        stats := { st.stats with postsFound := st.stats.postsFound + 1 }
        buffer := st.buffer ++ [transformPost now post] },
      true)

/-- `addComment`, the comment-side twin of `addPost`. -/
def addComment (cfg : Config) (now : ℕ) (st : RedditState) (comment : RedditComment) :
    RedditState × Bool :=
  if JsStr.isEmptyStr comment.name then (st, false)
  else if st.seenIds.contains comment.name then
    ({ st with stats := { st.stats with duplicatesSkipped := st.stats.duplicatesSkipped + 1 } },
      false)
  else if st.seenContent.contains (commentContentKey comment) then
    ({ st with stats := { st.stats with duplicatesSkipped := st.stats.duplicatesSkipped + 1 } },
      false)
  else if !isRelevant cfg comment.body "" comment.subreddit (some comment.permalink) then
    ({ st with stats := { st.stats with filteredOut := st.stats.filteredOut + 1 } }, false)
  else
    ({ st with
        seenIds := st.seenIds ++ [comment.name]
        seenContent := st.seenContent ++ [commentContentKey comment]
        stats := { st.stats with commentsFound := st.stats.commentsFound + 1 }
        buffer := st.buffer ++ [transformComment now comment] },
      true)

end Reddit

/-! ## Play Store scraper (`src/scrapers/playstore.ts`)

`fetchViaAPI`'s per-review dedup step, and the cursor decision at the end
of `run()`.  Dates are epoch ms; a `none` date models a missing or
unparseable `review.date`. -/

namespace PlayStore

structure PlayStoreReviewData where
  id : String
  userName : String
  userImage : Option String
  date : Option ℕ
  score : Int
  text : String
  thumbsUp : Int
  version : Option String
  replyText : Option String
  replyDate : Option ℕ
deriving Repr, DecidableEq

/-- Build the stored record from a raw API review, with the `||` fallbacks
of `fetchViaAPI`. -/
def toStored (r : PlayStoreReviewData) : PlayStoreReviewData :=
  { r with
    userName := if JsStr.isEmptyStr r.userName then "Anonymous" else r.userName }

/-- The in-progress state of the `fetchViaAPI` review loop. -/
structure ApiFetchState where
  allReviews : List (String × PlayStoreReviewData)
  consecutiveKnownIds : ℕ
  newInBatch : ℕ
deriving Repr, DecidableEq

/-- One review of a page in `fetchViaAPI`: skip falsy ids, count cross-run
known ids, skip in-run seen ids, otherwise record. -/
def processApiReview (knownIds : List String) (st : ApiFetchState)
    (review : PlayStoreReviewData) : ApiFetchState :=
  if JsStr.isEmptyStr review.id then st
  else if knownIds.contains review.id then
    { st with consecutiveKnownIds := st.consecutiveKnownIds + 1 }
  else if (st.allReviews.map Prod.fst).contains review.id then st
  else
    { st with
      allReviews := st.allReviews ++ [(review.id, toStored review)]
      newInBatch := st.newInBatch + 1
      consecutiveKnownIds := 0 }

/-- `review.version || null` and friends: empty strings become `NULL`. -/
def optNonEmpty (s : Option String) : Option String :=
  match s with
  | none => none
  | some v => if JsStr.isEmptyStr v then none else some v

/-- Conversion to a `reviews` row inside `run()` (`now` is the clock for
the missing-date fallback). -/
def playToReview (now : ℕ) (r : PlayStoreReviewData) : Db.Review :=
  let sentiment := Sentiment.analyzeSentiment (some r.text)
  { platform_id := Db.playstorePlatformId
    external_id := r.id
    author := if JsStr.isEmptyStr r.userName then "Anonymous" else r.userName
    rating := r.score
    title := none
    content := r.text
    app_version := optNonEmpty r.version
    helpful_count := r.thumbsUp
    developer_reply := optNonEmpty r.replyText
    sentiment_score := some sentiment.score
    sentiment_label := some sentiment.label.str
    review_date := r.date.getD now }

/-- One step of the `newestDateFound` fold of `run()`. -/
def playNewestStep (acc : Option ℕ) (r : PlayStoreReviewData) : Option ℕ :=
  match r.date with
  | none => acc
  | some d =>
      match acc with
      | none => some d
      | some m => if d > m then some d else some m

/-- The `newestDateFound` fold of `run()`: maximum of the valid dates. -/
def playNewestDate (l : List PlayStoreReviewData) : Option ℕ :=
  l.foldl playNewestStep none

/-- The cursor decision at the end of `PlayStoreScraper.run`:
`collected` holds the merged unique new reviews of the run. -/
def playStoreRunEnd (now : ℕ) (cursor : Option Db.ScrapeCursor)
    (collected : List PlayStoreReviewData) : Option Db.ScrapeCursor :=
  let reviews := collected.map (playToReview now)
  if reviews.length > 0 then
    let recentIds := ((Db.sortByDateDesc reviews).take 50).map (·.external_id)
    some (Db.updateScrapeCursor "playstore" now (playNewestDate collected) (some recentIds))
  else if cursor.isNone then
    some (Db.updateScrapeCursor "playstore" now (some now) none)
  else cursor

end PlayStore

/-! ## App Store scraper (`src/scrapers/appstore.ts`)

The RSS pagination loop `fetchAllPagesForCountry` with its early-
termination rule, and the cursor decision at the end of `run()`. -/

namespace AppStore

structure AppStoreReview where
  id : String
  author : String
  rating : Int
  title : String
  content : String
  version : String
  updated : ℕ
  country : String
deriving Repr, DecidableEq

/-- One RSS feed entry.  `imName` marks the app-metadata entry (skipped);
`updated` is the parsed `entry.updated?.label` (`none` triggers the
"now" fallback); `id` is `entry.id?.label` (the random fallback id is
determinized to `as-` plus the country). -/
structure FeedEntry where
  imName : Bool
  updated : Option ℕ
  id : Option String
  authorName : Option String
  rating : Int
  title : Option String
  content : Option String
  version : Option String
deriving Repr, DecidableEq

def entryToReview (now : ℕ) (country : String) (e : FeedEntry) : AppStoreReview :=
  { id := e.id.getD ("as-" ++ country)
    author := e.authorName.getD "Anonymous"
    rating := e.rating
    title := e.title.getD ""
    content := e.content.getD ""
    version := e.version.getD ""
    updated := e.updated.getD now
    country := JsStr.toUpper country }

structure PageScan where
  accepted : List AppStoreReview
  pageReviewCount : ℕ
  skipCount : ℕ
deriving Repr, DecidableEq

/-- One entry of the per-page loop: skip the metadata entry, skip (and
count) entries at or below the cutoff, accept the rest. -/
def scanStep (now : ℕ) (country : String) (cutoff : Option ℕ)
    (st : PageScan) (e : FeedEntry) : PageScan :=
  if e.imName then st
  else
    let updated := e.updated.getD now
    let skip : Bool :=
      match cutoff with
      | some cut => decide (updated ≤ cut)
      | none => false
    if skip then { st with skipCount := st.skipCount + 1 }
    else
      { st with
        accepted := st.accepted ++ [entryToReview now country e]
        pageReviewCount := st.pageReviewCount + 1 }

/-- The entry loop over one RSS page. -/
def scanEntries (now : ℕ) (country : String) (cutoff : Option ℕ)
    (entries : List FeedEntry) : PageScan :=
  entries.foldl (scanStep now country cutoff) ⟨[], 0, 0⟩

/-- The page loop: emit each page's accepted reviews; stop when a page
yields zero accepted reviews (whether or not anything was skipped), or
when the pages run out, or after `fuel` pages.  Also returns how many
pages were requested. -/
def fetchPagesGo (now : ℕ) (country : String) (cutoff : Option ℕ) :
    ℕ → List (List FeedEntry) → List AppStoreReview × ℕ
  | _, [] => ([], 0)
  | 0, _ :: _ => ([], 0)
  | fuel + 1, entries :: rest =>
      let scan := scanEntries now country cutoff entries
      if scan.pageReviewCount = 0 ∧ scan.skipCount > 0 then (scan.accepted, 1)
      else if scan.pageReviewCount = 0 then (scan.accepted, 1)
      else
        let next := fetchPagesGo now country cutoff fuel rest
        (scan.accepted ++ next.1, next.2 + 1)

/-- `fetchAllPagesForCountry` with its `maxPages = 10` cap; `pages` is the
sequence of well-formed pages the endpoint would serve in order. -/
def fetchAllPagesForCountry (now : ℕ) (country : String) (cutoff : Option ℕ)
    (pages : List (List FeedEntry)) : List AppStoreReview × ℕ :=
  fetchPagesGo now country cutoff 10 pages

/-- One step of the `newestDateFound` fold of `run()`. -/
def newestStep (acc : Option ℕ) (r : AppStoreReview) : Option ℕ :=
  match acc with
  | none => some r.updated
  | some d => if r.updated > d then some r.updated else some d

/-- The `newestDateFound` fold of `run()`. -/
def newestDateFound (l : List AppStoreReview) : Option ℕ :=
  l.foldl newestStep none

/-- Conversion to a `reviews` row inside `run()`. -/
def appStoreToReview (r : AppStoreReview) : Db.Review :=
  let sentiment :=
    Sentiment.analyzeSentiment (some (Reddit.jsOrStr r.content r.title))
  { platform_id := Db.appstorePlatformId
    external_id := r.id
    author := r.author
    rating := r.rating
    title := some r.title
    content := r.content
    app_version := if JsStr.isEmptyStr r.version then none else some r.version
    helpful_count := 0
    developer_reply := none
    sentiment_score := some sentiment.score
    sentiment_label := some sentiment.label.str
    review_date := r.updated }

/-- The cursor decision at the end of `AppStoreScraper.run`: `collected`
holds the unique reviews gathered in the run. -/
def appStoreRunEnd (now : ℕ) (cursor : Option Db.ScrapeCursor)
    (collected : List AppStoreReview) : Option Db.ScrapeCursor :=
  let cutoffDate := cursor.bind (fun c => c.last_item_date)
  let reviews := collected.map appStoreToReview
  match newestDateFound collected with
  | some d =>
      let advance :=
        match cutoffDate with
        | none => true
        | some cut => cut < d
      if advance then
        let recentIds := ((Db.sortByDateDesc reviews).take 100).map (·.external_id)
        some (Db.updateScrapeCursor "appstore" now (some d) (some recentIds))
      else cursor
  | none =>
      if cursor.isNone ∧ reviews.length > 0 then
        some (Db.updateScrapeCursor "appstore" now (some now) none)
      else cursor

end AppStore

/-! ## Orchestrator control flow (`RedditScraper.run`) and scheduler
(`src/scheduler/jobs.ts`)

`run()` executes phases 0–5 sequentially inside one `try`; each phase
method returns immediately when `isTimeUp()` (`Date.now() - startTime >
maxDuration`) already holds; a thrown exception anywhere jumps to the
single `catch`, which flushes the buffer, logs the run as failed and
returns normally.  A `PhaseSpec` abstracts one phase body: the wall-clock
time it consumes, the items it appends to the shared buffer before a
possible throw, and whether it throws.  The model emits a trace so that
ordering facts (flush before the failure log; which phases ran) are
first-class. -/

namespace Orchestrate

structure PhaseSpec where
  duration : ℕ
  items : List Reddit.Mention
  err : Option String
deriving Repr, DecidableEq

inductive Ev where
  | phaseRun (i : ℕ)
  | phaseSkip (i : ℕ)
  | flushEv (n : ℕ)
  | logEndEv (success : Bool)
deriving Repr, DecidableEq

structure RunOutcome where
  trace : List Ev
  flushed : List Reddit.Mention
  errors : List String
  failed : Bool
deriving Repr, DecidableEq

/-- The phase loop of `run()`: `now` is elapsed ms since `startTime`, `i`
the phase index, `buffer` the shared in-memory buffer. -/
def runGo (maxDuration : ℕ) :
    ℕ → ℕ → List Reddit.Mention → List Ev → List PhaseSpec → RunOutcome
  | _, _, buffer, trace, [] =>
      { trace := trace ++ [Ev.flushEv buffer.length, Ev.logEndEv true]
        flushed := buffer
        errors := []
        failed := false }
  | now, i, buffer, trace, p :: rest =>
      if maxDuration < now then
        runGo maxDuration now (i + 1) buffer (trace ++ [Ev.phaseSkip i]) rest
      else
        let buffer' := buffer ++ p.items
        match p.err with
        | some e =>
            { trace := trace ++ [Ev.phaseRun i, Ev.flushEv buffer'.length, Ev.logEndEv false]
              flushed := buffer'
              errors := [e]
              failed := true }
        | none =>
            runGo maxDuration (now + p.duration) (i + 1) buffer'
              (trace ++ [Ev.phaseRun i]) rest

/-- `RedditScraper.run` on a given phase list. -/
def redditRunModel (maxDuration : ℕ) (phases : List PhaseSpec) : RunOutcome :=
  runGo maxDuration 0 0 [] [] phases

/-- Specification mirror: the items accepted (buffered) by the run — every
item appended by a phase that actually ran, up to and including the first
failing phase. -/
def specAccepted (maxDuration : ℕ) : ℕ → List PhaseSpec → List Reddit.Mention
  | _, [] => []
  | now, p :: rest =>
      if maxDuration < now then specAccepted maxDuration now rest
      else
        match p.err with
        | some _ => p.items
        | none => p.items ++ specAccepted maxDuration (now + p.duration) rest

/-- Specification mirror: the first error thrown by a phase that ran. -/
def specFailure (maxDuration : ℕ) : ℕ → List PhaseSpec → Option String
  | _, [] => none
  | now, p :: rest =>
      if maxDuration < now then specFailure maxDuration now rest
      else
        match p.err with
        | some e => some e
        | none => specFailure maxDuration (now + p.duration) rest

end Orchestrate

namespace Scheduler

inductive SchedEv where
  | skippedOverlap
  | started
  | completed
  | failedLog (e : String)
deriving Repr, DecidableEq

/-- One firing of a scheduled job (`startScheduler`'s cron callback): skip
if the same job is still running; otherwise run it, catch and log any
error, and always release the mutex in the `finally`.  `outcome` is the
result of `job.runner()`. -/
def schedulerTick (running : List String) (name : String)
    (outcome : Except String Unit) : List String × List SchedEv :=
  if running.contains name then (running, [SchedEv.skippedOverlap])
  else
    match outcome with
    | Except.ok _ =>
        ((running ++ [name]).filter (fun n => n != name),
          [SchedEv.started, SchedEv.completed])
    | Except.error e =>
        ((running ++ [name]).filter (fun n => n != name),
          [SchedEv.started, SchedEv.failedLog e])

end Scheduler

/-! ## Concrete fixtures used by witnesses and counterexamples -/

namespace Fixtures

def samplePost : Reddit.RedditPost :=
  { id := "x1"
    name := "t3_x1"
    title := "Matiks app is great"
    author := "alice"
    subreddit := "androidapps"
    permalink := "/r/androidapps/comments/x1"
    selftext := ""
    score := 5
    num_comments := 2
    created_utc := 1700000000
    url := none
    previewUrl := none }

def sampleComment : Reddit.RedditComment :=
  { id := "c1"
    name := "t1_c1"
    author := "bob"
    body := "I tried the matiks app and liked it"
    score := 3
    created_utc := 1700000100
    permalink := "/r/androidapps/comments/x1/c/c1"
    subreddit := "androidapps" }

/-- A run state that has already seen `samplePost`'s native id. -/
def dupIdState : Reddit.RedditState :=
  { Reddit.initialRedditState with seenIds := ["t3_x1", "t1_c1"] }

def samplePlayReview : PlayStore.PlayStoreReviewData :=
  { id := "gp:review1"
    userName := "carol"
    userImage := none
    date := some 1700000200000
    score := 5
    text := "fun math duels"
    thumbsUp := 3
    version := some "1.2.0"
    replyText := none
    replyDate := none }

def sampleCursor : Db.ScrapeCursor :=
  { platform := "appstore"
    last_scraped_at := 100
    last_item_date := some 50
    last_item_ids := some ["a", "b"] }

def sampleAppReview : AppStore.AppStoreReview :=
  { id := "as1"
    author := "dave"
    rating := 4
    title := "Nice"
    content := "good practice"
    version := "2.0"
    updated := 90
    country := "US" }

def sampleMention : Reddit.Mention := Reddit.transformPost 0 samplePost

def failingPhases : List Orchestrate.PhaseSpec :=
  [{ duration := 5, items := [sampleMention], err := some "boom" },
   { duration := 5, items := [], err := none }]

def freshEntry (t : ℕ) (i : String) : AppStore.FeedEntry :=
  { imName := false
    updated := some t
    id := some i
    authorName := some "eve"
    rating := 5
    title := some "T"
    content := some "C"
    version := some "1.0"
    }

end Fixtures

/-! ## Proofs -/

namespace RateLimitMod

theorem refillTokens_fields (s : RateLimitState) (now : ℚ) :
    (refillTokens s now).maxTokens = s.maxTokens ∧
      (refillTokens s now).refillRate = s.refillRate ∧
      (refillTokens s now).backoffMultiplier = s.backoffMultiplier := by
  refine ⟨rfl, rfl, rfl⟩

theorem refillTokens_tokens_bounds (s : RateLimitState) (now : ℚ)
    (h0 : 0 ≤ s.tokens) (h1 : s.tokens ≤ s.maxTokens)
    (hr : 0 ≤ s.refillRate) (ht : s.lastRefill ≤ now) :
    0 ≤ (refillTokens s now).tokens ∧
      (refillTokens s now).tokens ≤ s.maxTokens := by
  have hd : 0 ≤ (now - s.lastRefill) / 1000 * s.refillRate := by
    have : (0 : ℚ) ≤ (now - s.lastRefill) / 1000 := by
      have : (0 : ℚ) ≤ now - s.lastRefill := by linarith
      positivity
    exact mul_nonneg this hr
  constructor
  · show 0 ≤ min s.maxTokens (s.tokens + (now - s.lastRefill) / 1000 * s.refillRate)
    exact le_min (le_trans h0 h1) (by linarith)
  · exact min_le_left _ _

theorem refillTokens_inv (s : RateLimitState) (now : ℚ)
    (h : rlInv s) (ht : s.lastRefill ≤ now) : rlInv (refillTokens s now) := by
  obtain ⟨h0, h1, h2, h3, h4, h5⟩ := h
  obtain ⟨g0, g1⟩ := refillTokens_tokens_bounds s now h0 h1 (le_of_lt h3) ht
  exact ⟨g0, g1, h2, h3, h4, h5⟩

theorem rateLimitWaitStage_fields (s : RateLimitState) (t0 t1 : ℚ) :
    (rateLimitWaitStage s t0 t1).maxTokens = s.maxTokens ∧
      (rateLimitWaitStage s t0 t1).refillRate = s.refillRate ∧
      (rateLimitWaitStage s t0 t1).backoffMultiplier = s.backoffMultiplier := by
  unfold rateLimitWaitStage
  split
  · exact ⟨rfl, rfl, rfl⟩
  · exact ⟨rfl, rfl, rfl⟩

theorem rateLimitWaitStage_tokens (s : RateLimitState) (t0 t1 : ℚ)
    (h : rlInv s)
    (ht0 : s.lastRefill ≤ t0) (ht01 : t0 ≤ t1)
    (hwait : (refillTokens s t0).tokens < 1 →
      t0 + waitTimeMs (refillTokens s t0) ≤ t1) :
    1 ≤ (rateLimitWaitStage s t0 t1).tokens ∧
      (rateLimitWaitStage s t0 t1).tokens ≤ s.maxTokens := by
  obtain ⟨h0, h1, h2, h3, h4, h5⟩ := h
  have hb := refillTokens_tokens_bounds s t0 h0 h1 (le_of_lt h3) ht0
  unfold rateLimitWaitStage
  by_cases hc : (refillTokens s t0).tokens < 1
  · rw [if_pos hc]
    have hw := hwait hc
    have hx0 : 0 ≤ (refillTokens s t0).tokens := hb.1
    have hfrac : (1 - (refillTokens s t0).tokens) / s.refillRate * 1000 * s.backoffMultiplier
        ≤ t1 - t0 := by
      simp only [waitTimeMs] at hw
      have hrr : (refillTokens s t0).refillRate = s.refillRate := rfl
      have hbb : (refillTokens s t0).backoffMultiplier = s.backoffMultiplier := rfl
      rw [hrr, hbb] at hw
      linarith
    have hprod : (1 - (refillTokens s t0).tokens) * 1000 * s.backoffMultiplier
        ≤ (t1 - t0) * s.refillRate := by
      have heq : (1 - (refillTokens s t0).tokens) / s.refillRate * 1000 * s.backoffMultiplier
          = (1 - (refillTokens s t0).tokens) * 1000 * s.backoffMultiplier / s.refillRate := by
        ring
      rw [heq] at hfrac
      exact (div_le_iff₀ h3).mp hfrac
    have hmono : (1 - (refillTokens s t0).tokens) * 1000 * 1
        ≤ (1 - (refillTokens s t0).tokens) * 1000 * s.backoffMultiplier := by
      have hpos : (0 : ℚ) ≤ (1 - (refillTokens s t0).tokens) * 1000 := by linarith
      nlinarith
    have heq2 : (t1 - t0) / 1000 * s.refillRate = (t1 - t0) * s.refillRate / 1000 := by
      ring
    have hgain : 1 - (refillTokens s t0).tokens ≤ (t1 - t0) / 1000 * s.refillRate := by
      rw [heq2]
      linarith
    constructor
    · show 1 ≤ min (refillTokens s t0).maxTokens
        ((refillTokens s t0).tokens
          + (t1 - (refillTokens s t0).lastRefill) / 1000 * (refillTokens s t0).refillRate)
      refine le_min h2 ?_
      show 1 ≤ (refillTokens s t0).tokens + (t1 - t0) / 1000 * s.refillRate
      linarith
    · exact min_le_left _ _
  · rw [if_neg hc]
    push_neg at hc
    exact ⟨hc, hb.2⟩

theorem rateLimitAcq_inv (s : RateLimitState) (t0 t1 : ℚ)
    (h : rlInv s)
    (ht0 : s.lastRefill ≤ t0) (ht01 : t0 ≤ t1)
    (hwait : (refillTokens s t0).tokens < 1 →
      t0 + waitTimeMs (refillTokens s t0) ≤ t1) :
    rlInv (rateLimitAcq s t0 t1) := by
  obtain ⟨hw1, hw2⟩ := rateLimitWaitStage_tokens s t0 t1 h ht0 ht01 hwait
  obtain ⟨hf1, hf2, hf3⟩ := rateLimitWaitStage_fields s t0 t1
  obtain ⟨h0, h1, h2, h3, h4, h5⟩ := h
  have e1 : (rateLimitAcq s t0 t1).tokens = (rateLimitWaitStage s t0 t1).tokens - 1 := rfl
  have e2 : (rateLimitAcq s t0 t1).maxTokens = (rateLimitWaitStage s t0 t1).maxTokens := rfl
  have e3 : (rateLimitAcq s t0 t1).refillRate = (rateLimitWaitStage s t0 t1).refillRate := rfl
  have e4 : (rateLimitAcq s t0 t1).backoffMultiplier
      = (rateLimitWaitStage s t0 t1).backoffMultiplier := rfl
  refine ⟨?_, ?_, ?_, ?_, ?_, ?_⟩
  · rw [e1]; linarith
  · rw [e1, e2, hf1]; linarith
  · rw [e2, hf1]; exact h2
  · rw [e3, hf2]; exact h3
  · rw [e4, hf3]; exact h4
  · rw [e4, hf3]; exact h5

theorem reportSuccess_inv (s : RateLimitState) (h : rlInv s) :
    rlInv (reportSuccess s) := by
  obtain ⟨h0, h1, h2, h3, h4, h5⟩ := h
  refine ⟨h0, h1, h2, h3, le_max_left _ _, ?_⟩
  show max 1 (s.backoffMultiplier * (9 / 10)) ≤ 10
  exact max_le (by norm_num) (by nlinarith)

theorem reportFailure_inv (s : RateLimitState) (h : rlInv s) :
    rlInv (reportFailure s) := by
  obtain ⟨h0, h1, h2, h3, h4, h5⟩ := h
  refine ⟨le_refl 0, ?_, h2, h3, ?_, min_le_left _ _⟩
  · show (0 : ℚ) ≤ s.maxTokens
    linarith
  · show 1 ≤ min 10 (s.backoffMultiplier * 2)
    exact le_min (by norm_num) (by nlinarith)

theorem rlStep_inv (s : RateLimitState) (op : RLOp)
    (h : rlInv s) (hw : rlWellTimed s op) : rlInv (rlStep s op) := by
  cases op with
  | refillAt now => exact refillTokens_inv s now h hw
  | acquire t0 t1 => exact rateLimitAcq_inv s t0 t1 h hw.1 hw.2.1 hw.2.2
  | success => exact reportSuccess_inv s h
  | failure => exact reportFailure_inv s h

theorem rlRun_inv (s : RateLimitState) (ops : List RLOp)
    (h : rlInv s) (hv : rlValid s ops) : rlInv (rlRun s ops) := by
  induction ops generalizing s with
  | nil => exact h
  | cons op ops ih =>
      exact ih (rlStep s op) (rlStep_inv s op h hv.1) hv.2

/-- Saturation: once the bucket has been idle for at least
`maxTokens / refillRate` seconds, a refill fills it exactly to `maxTokens`. -/
theorem refillTokens_saturates (s : RateLimitState) (now : ℚ)
    (h0 : 0 ≤ s.tokens) (h3 : 0 < s.refillRate)
    (hidle : s.maxTokens / s.refillRate ≤ (now - s.lastRefill) / 1000) :
    (refillTokens s now).tokens = s.maxTokens := by
  show min s.maxTokens (s.tokens + (now - s.lastRefill) / 1000 * s.refillRate) = s.maxTokens
  have : s.maxTokens ≤ (now - s.lastRefill) / 1000 * s.refillRate := by
    have := mul_le_mul_of_nonneg_right hidle (le_of_lt h3)
    rw [div_mul_cancel₀] at this
    · exact this
    · exact ne_of_gt h3
  exact min_eq_left (by linarith)

end RateLimitMod

namespace RedditLim

theorem prodRefill_tokens_bounds (p : ProductionRateLimiter) (now : ℚ)
    (h0 : 0 ≤ p.tokens) (h1 : p.tokens ≤ p.maxTokens)
    (hr : 0 ≤ p.refillRate) (ht : p.lastRefill ≤ now) :
    0 ≤ (refillTokens p now).tokens ∧
      (refillTokens p now).tokens ≤ p.maxTokens := by
  have hd : 0 ≤ (now - p.lastRefill) / 1000 * p.refillRate := by
    have h' : (0 : ℚ) ≤ (now - p.lastRefill) / 1000 := by
      have : (0 : ℚ) ≤ now - p.lastRefill := by linarith
      positivity
    exact mul_nonneg h' hr
  constructor
  · show 0 ≤ min p.maxTokens (p.tokens + (now - p.lastRefill) / 1000 * p.refillRate)
    exact le_min (le_trans h0 h1) (by linarith)
  · exact min_le_left _ _

theorem prodRefill_inv (p : ProductionRateLimiter) (now : ℚ)
    (h : plInv p) (ht : p.lastRefill ≤ now) : plInv (refillTokens p now) := by
  obtain ⟨h0, h1, h2, h3, h4, h5⟩ := h
  obtain ⟨g0, g1⟩ := prodRefill_tokens_bounds p now h0 h1 (le_of_lt h3) ht
  exact ⟨g0, g1, h2, h3, h4, h5⟩

theorem acquireWaitStage_fields (p : ProductionRateLimiter) (t0 t1 : ℚ) :
    (acquireWaitStage p t0 t1).maxTokens = p.maxTokens ∧
      (acquireWaitStage p t0 t1).refillRate = p.refillRate ∧
      (acquireWaitStage p t0 t1).backoffMultiplier = p.backoffMultiplier := by
  unfold acquireWaitStage
  split
  · exact ⟨rfl, rfl, rfl⟩
  · exact ⟨rfl, rfl, rfl⟩

theorem acquireWaitStage_tokens (p : ProductionRateLimiter) (t0 t1 : ℚ)
    (h : plInv p) (ht0 : p.lastRefill ≤ t0) (ht01 : t0 ≤ t1) :
    0 ≤ (acquireWaitStage p t0 t1).tokens ∧
      (acquireWaitStage p t0 t1).tokens ≤ p.maxTokens := by
  obtain ⟨h0, h1, h2, h3, h4, h5⟩ := h
  have hb := prodRefill_tokens_bounds p t0 h0 h1 (le_of_lt h3) ht0
  unfold acquireWaitStage
  by_cases hc : (refillTokens p t0).tokens < 1
  · rw [if_pos hc]
    have hmax : (refillTokens p t0).maxTokens = p.maxTokens := rfl
    have hlast : (refillTokens p t0).lastRefill = t0 := rfl
    have := prodRefill_tokens_bounds (refillTokens p t0) t1 hb.1
      (by rw [hmax]; exact hb.2)
      (le_of_lt h3) (by rw [hlast]; exact ht01)
    rw [hmax] at this
    exact this
  · rw [if_neg hc]
    exact hb

theorem acquire_inv (p : ProductionRateLimiter) (t0 t1 : ℚ)
    (h : plInv p) (ht0 : p.lastRefill ≤ t0) (ht01 : t0 ≤ t1) :
    plInv (acquire p t0 t1) := by
  obtain ⟨hw0, hw1⟩ := acquireWaitStage_tokens p t0 t1 h ht0 ht01
  obtain ⟨hf1, hf2, hf3⟩ := acquireWaitStage_fields p t0 t1
  obtain ⟨h0, h1, h2, h3, h4, h5⟩ := h
  have e1 : (acquire p t0 t1).tokens = max 0 ((acquireWaitStage p t0 t1).tokens - 1) := rfl
  have e2 : (acquire p t0 t1).maxTokens = (acquireWaitStage p t0 t1).maxTokens := rfl
  have e3 : (acquire p t0 t1).refillRate = (acquireWaitStage p t0 t1).refillRate := rfl
  have e4 : (acquire p t0 t1).backoffMultiplier
      = (acquireWaitStage p t0 t1).backoffMultiplier := rfl
  refine ⟨?_, ?_, ?_, ?_, ?_, ?_⟩
  · rw [e1]; exact le_max_left _ _
  · rw [e1, e2, hf1]
    exact max_le (by linarith) (by linarith)
  · rw [e2, hf1]; exact h2
  · rw [e3, hf2]; exact h3
  · rw [e4, hf3]; exact h4
  · rw [e4, hf3]; exact h5

theorem onSuccess_inv (p : ProductionRateLimiter) (h : plInv p) :
    plInv (onSuccess p) := by
  obtain ⟨h0, h1, h2, h3, h4, h5⟩ := h
  refine ⟨h0, h1, h2, h3, le_max_left _ _, ?_⟩
  show max 1 (p.backoffMultiplier * (9 / 10)) ≤ 10
  exact max_le (by norm_num) (by nlinarith)

theorem onRateLimit_inv (p : ProductionRateLimiter) (h : plInv p) :
    plInv (onRateLimit p) := by
  obtain ⟨h0, h1, h2, h3, h4, h5⟩ := h
  refine ⟨le_refl 0, ?_, h2, h3, ?_, min_le_left _ _⟩
  · show (0 : ℚ) ≤ p.maxTokens
    linarith
  · show 1 ≤ min 10 (p.backoffMultiplier * 2)
    exact le_min (by norm_num) (by nlinarith)

theorem plStep_inv (p : ProductionRateLimiter) (op : PLOp)
    (h : plInv p) (hw : plWellTimed p op) : plInv (plStep p op) := by
  cases op with
  | refillAt now => exact prodRefill_inv p now h hw
  | acquireAt t0 t1 => exact acquire_inv p t0 t1 h hw.1 hw.2
  | success => exact onSuccess_inv p h
  | rateLimited => exact onRateLimit_inv p h

theorem plRun_inv (p : ProductionRateLimiter) (ops : List PLOp)
    (h : plInv p) (hv : plValid p ops) : plInv (plRun p ops) := by
  induction ops generalizing p with
  | nil => exact h
  | cons op ops ih =>
      exact ih (plStep p op) (plStep_inv p op h hv.1) hv.2

theorem prodRefill_saturates (p : ProductionRateLimiter) (now : ℚ)
    (h0 : 0 ≤ p.tokens) (h3 : 0 < p.refillRate)
    (hidle : p.maxTokens / p.refillRate ≤ (now - p.lastRefill) / 1000) :
    (refillTokens p now).tokens = p.maxTokens := by
  show min p.maxTokens (p.tokens + (now - p.lastRefill) / 1000 * p.refillRate) = p.maxTokens
  have hge : p.maxTokens ≤ (now - p.lastRefill) / 1000 * p.refillRate := by
    have := mul_le_mul_of_nonneg_right hidle (le_of_lt h3)
    rw [div_mul_cancel₀] at this
    · exact this
    · exact ne_of_gt h3
  exact min_eq_left (by linarith)

end RedditLim

/-! ### Claim C2 -/

/-- C2: for every per-source rate-limiter state (both the shared Rate
Governor of `rateLimit.ts` and the reddit scraper's
`ProductionRateLimiter`) and every well-timed sequence of
refill / acquire / report-success / report-failure operations starting
from a state satisfying the invariant, the token count never goes
negative and never exceeds `maxTokens`; and after an idle period of at
least `maxTokens / refillRate` seconds, a refill saturates the token
count at exactly `maxTokens`. -/
theorem C2_token_bounds_and_saturation :
    (∀ (s : RateLimitMod.RateLimitState) (ops : List RateLimitMod.RLOp),
        RateLimitMod.rlInv s → RateLimitMod.rlValid s ops →
          0 ≤ (RateLimitMod.rlRun s ops).tokens ∧
            (RateLimitMod.rlRun s ops).tokens ≤ (RateLimitMod.rlRun s ops).maxTokens) ∧
    (∀ (s : RateLimitMod.RateLimitState) (now : ℚ),
        RateLimitMod.rlInv s →
          s.maxTokens / s.refillRate ≤ (now - s.lastRefill) / 1000 →
          (RateLimitMod.refillTokens s now).tokens = s.maxTokens) ∧
    (∀ (p : RedditLim.ProductionRateLimiter) (ops : List RedditLim.PLOp),
        RedditLim.plInv p → RedditLim.plValid p ops →
          0 ≤ (RedditLim.plRun p ops).tokens ∧
            (RedditLim.plRun p ops).tokens ≤ (RedditLim.plRun p ops).maxTokens) ∧
    (∀ (p : RedditLim.ProductionRateLimiter) (now : ℚ),
        RedditLim.plInv p →
          p.maxTokens / p.refillRate ≤ (now - p.lastRefill) / 1000 →
          (RedditLim.refillTokens p now).tokens = p.maxTokens) := by
  refine ⟨?_, ?_, ?_, ?_⟩
  · intro s ops h hv
    have := RateLimitMod.rlRun_inv s ops h hv
    exact ⟨this.1, this.2.1⟩
  · intro s now h hidle
    exact RateLimitMod.refillTokens_saturates s now h.1 h.2.2.2.1 hidle
  · intro p ops h hv
    have := RedditLim.plRun_inv p ops h hv
    exact ⟨this.1, this.2.1⟩
  · intro p now h hidle
    exact RedditLim.prodRefill_saturates p now h.1 h.2.2.2.1 hidle

/-- Witness for C2 at concrete limiter states and operation sequences. -/
theorem C2_token_bounds_and_saturation_witness :
    (0 ≤ (RateLimitMod.rlRun (RateLimitMod.getOrCreateLimiter 5 0)
        [RateLimitMod.RLOp.acquire 0 500, RateLimitMod.RLOp.failure,
          RateLimitMod.RLOp.success, RateLimitMod.RLOp.refillAt 120000]).tokens ∧
      (RateLimitMod.rlRun (RateLimitMod.getOrCreateLimiter 5 0)
        [RateLimitMod.RLOp.acquire 0 500, RateLimitMod.RLOp.failure,
          RateLimitMod.RLOp.success, RateLimitMod.RLOp.refillAt 120000]).tokens ≤
        (RateLimitMod.rlRun (RateLimitMod.getOrCreateLimiter 5 0)
          [RateLimitMod.RLOp.acquire 0 500, RateLimitMod.RLOp.failure,
            RateLimitMod.RLOp.success, RateLimitMod.RLOp.refillAt 120000]).maxTokens) ∧
    (RateLimitMod.refillTokens (RateLimitMod.getOrCreateLimiter 5 0) 120000).tokens
      = (RateLimitMod.getOrCreateLimiter 5 0).maxTokens ∧
    (0 ≤ (RedditLim.plRun (RedditLim.mkLimiter 2 0)
        [RedditLim.PLOp.acquireAt 0 0, RedditLim.PLOp.rateLimited,
          RedditLim.PLOp.success]).tokens ∧
      (RedditLim.plRun (RedditLim.mkLimiter 2 0)
        [RedditLim.PLOp.acquireAt 0 0, RedditLim.PLOp.rateLimited,
          RedditLim.PLOp.success]).tokens ≤
        (RedditLim.plRun (RedditLim.mkLimiter 2 0)
          [RedditLim.PLOp.acquireAt 0 0, RedditLim.PLOp.rateLimited,
            RedditLim.PLOp.success]).maxTokens) ∧
    (RedditLim.refillTokens (RedditLim.mkLimiter 2 0) 90000).tokens
      = (RedditLim.mkLimiter 2 0).maxTokens := by
  refine ⟨C2_token_bounds_and_saturation.1 _ _ ?_ ?_,
    C2_token_bounds_and_saturation.2.1 _ _ ?_ ?_,
    C2_token_bounds_and_saturation.2.2.1 _ _ ?_ ?_,
    C2_token_bounds_and_saturation.2.2.2 _ _ ?_ ?_⟩
  · norm_num [RateLimitMod.rlInv, RateLimitMod.getOrCreateLimiter]
  · norm_num [RateLimitMod.rlValid, RateLimitMod.rlWellTimed, RateLimitMod.rlStep,
      RateLimitMod.getOrCreateLimiter, RateLimitMod.refillTokens,
      RateLimitMod.rateLimitAcq, RateLimitMod.rateLimitWaitStage,
      RateLimitMod.reportFailure, RateLimitMod.reportSuccess]
  · norm_num [RateLimitMod.rlInv, RateLimitMod.getOrCreateLimiter]
  · norm_num [RateLimitMod.getOrCreateLimiter]
  · norm_num [RedditLim.plInv, RedditLim.mkLimiter]
  · norm_num [RedditLim.plValid, RedditLim.plWellTimed, RedditLim.plStep,
      RedditLim.mkLimiter, RedditLim.refillTokens, RedditLim.acquire,
      RedditLim.acquireWaitStage, RedditLim.onRateLimit, RedditLim.onSuccess]
  · norm_num [RedditLim.plInv, RedditLim.mkLimiter]
  · norm_num [RedditLim.mkLimiter]

/-! ### Claim C3 -/

/-- C3 counterexample: from the floor value `backoffMultiplier = 1` (the
initial state), a success report leaves the multiplier at exactly `1`, so
the multiplier is **not** strictly decreasing across immediately
consecutive successes, refuting that part of the claim. -/
theorem C3_strict_decrease_counterexample :
    ¬ ((RateLimitMod.reportSuccess (RateLimitMod.reportSuccess
          (RateLimitMod.getOrCreateLimiter 5 0))).backoffMultiplier
        < (RateLimitMod.reportSuccess
            (RateLimitMod.getOrCreateLimiter 5 0)).backoffMultiplier) := by
  norm_num [RateLimitMod.reportSuccess, RateLimitMod.getOrCreateLimiter]

/-- C3 (amended): in both limiters `backoffMultiplier` always stays within
`[1, 10]`; a failure report sets it to `min(10, b*2)` and drains the
tokens to `0`, and is non-decreasing; a success report sets it to
`max(1, b*0.9)`, which is non-increasing and strictly decreasing exactly
while the multiplier is above its floor `1` (at the floor it stays `1`). -/
theorem C3_backoff_bounds_amended :
    (∀ (s : RateLimitMod.RateLimitState) (ops : List RateLimitMod.RLOp),
        RateLimitMod.rlInv s → RateLimitMod.rlValid s ops →
          1 ≤ (RateLimitMod.rlRun s ops).backoffMultiplier ∧
            (RateLimitMod.rlRun s ops).backoffMultiplier ≤ 10) ∧
    (∀ s : RateLimitMod.RateLimitState, RateLimitMod.rlInv s →
        (RateLimitMod.reportFailure s).backoffMultiplier
            = min 10 (s.backoffMultiplier * 2) ∧
          (RateLimitMod.reportFailure s).tokens = 0 ∧
          s.backoffMultiplier ≤ (RateLimitMod.reportFailure s).backoffMultiplier ∧
          (RateLimitMod.reportSuccess s).backoffMultiplier
            = max 1 (s.backoffMultiplier * (9 / 10)) ∧
          (RateLimitMod.reportSuccess s).backoffMultiplier ≤ s.backoffMultiplier ∧
          (1 < s.backoffMultiplier →
            (RateLimitMod.reportSuccess s).backoffMultiplier < s.backoffMultiplier)) ∧
    (∀ (p : RedditLim.ProductionRateLimiter) (ops : List RedditLim.PLOp),
        RedditLim.plInv p → RedditLim.plValid p ops →
          1 ≤ (RedditLim.plRun p ops).backoffMultiplier ∧
            (RedditLim.plRun p ops).backoffMultiplier ≤ 10) ∧
    (∀ p : RedditLim.ProductionRateLimiter, RedditLim.plInv p →
        (RedditLim.onRateLimit p).backoffMultiplier
            = min 10 (p.backoffMultiplier * 2) ∧
          (RedditLim.onRateLimit p).tokens = 0 ∧
          p.backoffMultiplier ≤ (RedditLim.onRateLimit p).backoffMultiplier ∧
          (RedditLim.onSuccess p).backoffMultiplier
            = max 1 (p.backoffMultiplier * (9 / 10)) ∧
          (RedditLim.onSuccess p).backoffMultiplier ≤ p.backoffMultiplier ∧
          (1 < p.backoffMultiplier →
            (RedditLim.onSuccess p).backoffMultiplier < p.backoffMultiplier)) := by
  refine ⟨?_, ?_, ?_, ?_⟩
  · intro s ops h hv
    have := RateLimitMod.rlRun_inv s ops h hv
    exact ⟨this.2.2.2.2.1, this.2.2.2.2.2⟩
  · intro s h
    obtain ⟨h0, h1, h2, h3, h4, h5⟩ := h
    refine ⟨rfl, rfl, ?_, rfl, ?_, ?_⟩
    · exact le_min h5 (by linarith)
    · exact max_le h4 (by linarith)
    · intro hgt
      exact max_lt (by linarith) (by linarith)
  · intro p ops h hv
    have := RedditLim.plRun_inv p ops h hv
    exact ⟨this.2.2.2.2.1, this.2.2.2.2.2⟩
  · intro p h
    obtain ⟨h0, h1, h2, h3, h4, h5⟩ := h
    refine ⟨rfl, rfl, ?_, rfl, ?_, ?_⟩
    · exact le_min h5 (by linarith)
    · exact max_le h4 (by linarith)
    · intro hgt
      exact max_lt (by linarith) (by linarith)

/-- Witness for the amended C3 at concrete states. -/
theorem C3_backoff_bounds_amended_witness :
    (1 ≤ (RateLimitMod.rlRun (RateLimitMod.getOrCreateLimiter 5 0)
        [RateLimitMod.RLOp.failure, RateLimitMod.RLOp.failure,
          RateLimitMod.RLOp.success]).backoffMultiplier ∧
      (RateLimitMod.rlRun (RateLimitMod.getOrCreateLimiter 5 0)
        [RateLimitMod.RLOp.failure, RateLimitMod.RLOp.failure,
          RateLimitMod.RLOp.success]).backoffMultiplier ≤ 10) ∧
    ((RateLimitMod.reportFailure (RateLimitMod.getOrCreateLimiter 5 0)).backoffMultiplier
        = min 10 ((RateLimitMod.getOrCreateLimiter 5 0).backoffMultiplier * 2) ∧
      (RateLimitMod.reportFailure (RateLimitMod.getOrCreateLimiter 5 0)).tokens = 0) ∧
    ((RedditLim.onRateLimit (RedditLim.mkLimiter 2 0)).backoffMultiplier
        = min 10 ((RedditLim.mkLimiter 2 0).backoffMultiplier * 2) ∧
      (RedditLim.onRateLimit (RedditLim.mkLimiter 2 0)).tokens = 0) := by
  have h1 := C3_backoff_bounds_amended.1 (RateLimitMod.getOrCreateLimiter 5 0)
    [RateLimitMod.RLOp.failure, RateLimitMod.RLOp.failure, RateLimitMod.RLOp.success]
    (by norm_num [RateLimitMod.rlInv, RateLimitMod.getOrCreateLimiter])
    (by norm_num [RateLimitMod.rlValid, RateLimitMod.rlWellTimed, RateLimitMod.rlStep,
      RateLimitMod.reportFailure, RateLimitMod.reportSuccess])
  have h2 := C3_backoff_bounds_amended.2.1 (RateLimitMod.getOrCreateLimiter 5 0)
    (by norm_num [RateLimitMod.rlInv, RateLimitMod.getOrCreateLimiter])
  have h3 := C3_backoff_bounds_amended.2.2.2 (RedditLim.mkLimiter 2 0)
    (by norm_num [RedditLim.plInv, RedditLim.mkLimiter])
  exact ⟨h1, ⟨h2.1, h2.2.1⟩, ⟨h3.1, h3.2.1⟩⟩

/-! ### Claim C6 -/

/-- C6 counterexample: under the repository's default (balanced)
configuration, a text containing the strong anchor `com.matiks.app` —
hence one that strict matching accepts, and that `matchesBrandBalanced`
accepts through its strict branch — is nevertheless vetoed by the
Filipino-language exclusion pattern because it also contains the word
`pinoy`: `isRelevant` returns `false`, refuting "a text accepted by
strict matching is never vetoed by an exclusion pattern". -/
theorem C6_strict_match_vetoed_counterexample :
    ((Brand.getStrongBrandAnchors defaultConfig).map JsStr.toLower).any
        (fun t => JsStr.jsIncludes
          (Reddit.combinedText "check com.matiks.app pinoy" "" (some "")) t) = true ∧
      Brand.matchesBrandBalanced defaultConfig
          (Reddit.combinedText "check com.matiks.app pinoy" "" (some ""))
          Reddit.contextKeywords = true ∧
      Reddit.isRelevant defaultConfig "check com.matiks.app pinoy" "" "androidapps"
          (some "") = false := by
  refine ⟨by decide, by decide, by decide⟩

/-- C6 (amended): outside the always-include and excluded communities,
balanced mode accepts a text iff `matchesBrandBalanced` accepts it (a
brand-anchor match, or the bare brand keyword together with a context
keyword) **and** no exclusion pattern fires — the exclusion patterns veto
every balanced-mode acceptance, including those obtained through strict
matching; only when strict mode is configured are matches exempt from the
exclusion patterns. -/
theorem C6_balanced_relevance_amended :
    (∀ (cfg : Config) (t1 t2 sub : String) (url : Option String),
        cfg.brandStrict = false → cfg.brandBalanced = true →
        (Reddit.brandSubredditsOf cfg).contains (JsStr.toLower sub) = false →
        Reddit.excludeSubreddits.contains (JsStr.toLower sub) = false →
        Reddit.isRelevant cfg t1 t2 sub url =
          (Brand.matchesBrandBalanced cfg (Reddit.combinedText t1 t2 url)
              Reddit.contextKeywords &&
            !(Reddit.excludePatterns.any (fun p => p (Reddit.combinedText t1 t2 url))))) ∧
    (∀ (cfg : Config) (text : String),
        JsStr.isEmptyStr text = false →
        Brand.matchesBrandBalanced cfg text Reddit.contextKeywords =
          (Brand.matchesBrand cfg (JsStr.toLower text) ||
            (JsStr.jsIncludes (JsStr.toLower text) "matiks" &&
              Reddit.contextKeywords.any
                (fun k => JsStr.jsIncludes (JsStr.toLower text) (JsStr.toLower k))))) ∧
    (∀ (cfg : Config) (t1 t2 sub : String) (url : Option String),
        cfg.brandStrict = true →
        (Reddit.brandSubredditsOf cfg).contains (JsStr.toLower sub) = false →
        Reddit.excludeSubreddits.contains (JsStr.toLower sub) = false →
        Reddit.isRelevant cfg t1 t2 sub url =
          Brand.matchesBrand cfg (Reddit.combinedText t1 t2 url)) := by
  refine ⟨?_, ?_, ?_⟩
  · intro cfg t1 t2 sub url hs hb hbs hes
    simp only [Reddit.isRelevant, hbs, hes, hs, hb, Bool.false_eq_true, if_false]
    cases hok : Brand.matchesBrandBalanced cfg (Reddit.combinedText t1 t2 url)
        Reddit.contextKeywords with
    | false => simp
    | true =>
        simp only [Bool.not_true, Bool.false_eq_true, if_false, Bool.true_and]
        cases hex : Reddit.excludePatterns.any
            (fun p => p (Reddit.combinedText t1 t2 url)) with
        | false => simp
        | true => simp
  · intro cfg text hne
    simp only [Brand.matchesBrandBalanced, hne, Bool.false_eq_true, if_false]
    cases hmb : Brand.matchesBrand cfg (JsStr.toLower text) with
    | false =>
        simp only [Bool.false_eq_true, if_false, Bool.false_or]
        cases hinc : JsStr.jsIncludes (JsStr.toLower text) "matiks" with
        | false => simp
        | true => simp
    | true => simp
  · intro cfg t1 t2 sub url hs hbs hes
    simp only [Reddit.isRelevant, hbs, hes, hs, Bool.false_eq_true, if_false, if_true]

/-- Witness for the amended C6 at the default configuration and a
balanced-accepted text. -/
theorem C6_balanced_relevance_amended_witness :
    Reddit.isRelevant defaultConfig "matiks app is great" "" "androidapps" (some "") =
      (Brand.matchesBrandBalanced defaultConfig
          (Reddit.combinedText "matiks app is great" "" (some "")) Reddit.contextKeywords &&
        !(Reddit.excludePatterns.any
          (fun p => p (Reddit.combinedText "matiks app is great" "" (some ""))))) :=
  C6_balanced_relevance_amended.1 defaultConfig "matiks app is great" "" "androidapps"
    (some "") rfl rfl (by decide) (by decide)

/-! ### Claim C5 -/

/-- C5: within a single run a candidate is rejected, counted as a
duplicate and not emitted to the buffer whenever its native id is in the
run's seen-id set or its content fingerprint is in the run's
seen-fingerprint set (reddit `addPost`/`addComment`), or — for the Play
Store fetch, whose cross-run recent-identifier cache is loaded at run
start — whenever its native id is in that cache or already recorded this
run; on acceptance both keys (reddit), resp. the native id (Play Store),
are recorded. -/
theorem C5_dedup_ledger :
    (∀ (cfg : Config) (now : ℕ) (st : Reddit.RedditState) (post : Reddit.RedditPost),
        JsStr.isEmptyStr post.name = false →
          ((st.seenIds.contains post.name
              || st.seenContent.contains (Reddit.postContentKey post)) = true →
            (Reddit.addPost cfg now st post).2 = false ∧
            (Reddit.addPost cfg now st post).1.buffer = st.buffer ∧
            (Reddit.addPost cfg now st post).1.stats.duplicatesSkipped
              = st.stats.duplicatesSkipped + 1 ∧
            (Reddit.addPost cfg now st post).1.seenIds = st.seenIds ∧
            (Reddit.addPost cfg now st post).1.seenContent = st.seenContent) ∧
          ((Reddit.addPost cfg now st post).2 = true →
            (Reddit.addPost cfg now st post).1.seenIds = st.seenIds ++ [post.name] ∧
            (Reddit.addPost cfg now st post).1.seenContent
              = st.seenContent ++ [Reddit.postContentKey post] ∧
            (Reddit.addPost cfg now st post).1.buffer
              = st.buffer ++ [Reddit.transformPost now post])) ∧
    (∀ (cfg : Config) (now : ℕ) (st : Reddit.RedditState) (c : Reddit.RedditComment),
        JsStr.isEmptyStr c.name = false →
          ((st.seenIds.contains c.name
              || st.seenContent.contains (Reddit.commentContentKey c)) = true →
            (Reddit.addComment cfg now st c).2 = false ∧
            (Reddit.addComment cfg now st c).1.buffer = st.buffer ∧
            (Reddit.addComment cfg now st c).1.stats.duplicatesSkipped
              = st.stats.duplicatesSkipped + 1 ∧
            (Reddit.addComment cfg now st c).1.seenIds = st.seenIds ∧
            (Reddit.addComment cfg now st c).1.seenContent = st.seenContent) ∧
          ((Reddit.addComment cfg now st c).2 = true →
            (Reddit.addComment cfg now st c).1.seenIds = st.seenIds ++ [c.name] ∧
            (Reddit.addComment cfg now st c).1.seenContent
              = st.seenContent ++ [Reddit.commentContentKey c] ∧
            (Reddit.addComment cfg now st c).1.buffer
              = st.buffer ++ [Reddit.transformComment now c])) ∧
    (∀ (knownIds : List String) (st : PlayStore.ApiFetchState)
        (review : PlayStore.PlayStoreReviewData),
        JsStr.isEmptyStr review.id = false →
          ((knownIds.contains review.id
              || (st.allReviews.map Prod.fst).contains review.id) = true →
            (PlayStore.processApiReview knownIds st review).allReviews = st.allReviews ∧
            (PlayStore.processApiReview knownIds st review).newInBatch = st.newInBatch) ∧
          (knownIds.contains review.id = false →
            (st.allReviews.map Prod.fst).contains review.id = false →
            (PlayStore.processApiReview knownIds st review).allReviews
              = st.allReviews ++ [(review.id, PlayStore.toStored review)] ∧
            (PlayStore.processApiReview knownIds st review).newInBatch
              = st.newInBatch + 1)) := by
  refine ⟨?_, ?_, ?_⟩
  · intro cfg now st post hne
    constructor
    · intro hdup
      cases hs : st.seenIds.contains post.name with
      | true =>
          simp [Reddit.addPost, hne, show post.name ∈ st.seenIds by simpa using hs]
      | false =>
          cases hc : st.seenContent.contains (Reddit.postContentKey post) with
          | true =>
              simp [Reddit.addPost, hne,
                show post.name ∉ st.seenIds by simpa using hs,
                show Reddit.postContentKey post ∈ st.seenContent by simpa using hc]
          | false =>
              rw [hs, hc] at hdup
              simp at hdup
    · intro hacc
      cases hs : st.seenIds.contains post.name with
      | true =>
          simp [Reddit.addPost, hne,
            show post.name ∈ st.seenIds by simpa using hs] at hacc
      | false =>
          cases hc : st.seenContent.contains (Reddit.postContentKey post) with
          | true =>
              simp [Reddit.addPost, hne,
                show post.name ∉ st.seenIds by simpa using hs,
                show Reddit.postContentKey post ∈ st.seenContent by simpa using hc] at hacc
          | false =>
              cases hrel : Reddit.isRelevant cfg post.title post.selftext post.subreddit
                  (some (Reddit.postUrlHint post)) with
              | false =>
                  simp [Reddit.addPost, hne,
                    show post.name ∉ st.seenIds by simpa using hs,
                    show Reddit.postContentKey post ∉ st.seenContent by simpa using hc,
                    hrel] at hacc
              | true =>
                  simp [Reddit.addPost, hne,
                    show post.name ∉ st.seenIds by simpa using hs,
                    show Reddit.postContentKey post ∉ st.seenContent by simpa using hc,
                    hrel]
  · intro cfg now st c hne
    constructor
    · intro hdup
      cases hs : st.seenIds.contains c.name with
      | true =>
          simp [Reddit.addComment, hne, show c.name ∈ st.seenIds by simpa using hs]
      | false =>
          cases hc : st.seenContent.contains (Reddit.commentContentKey c) with
          | true =>
              simp [Reddit.addComment, hne,
                show c.name ∉ st.seenIds by simpa using hs,
                show Reddit.commentContentKey c ∈ st.seenContent by simpa using hc]
          | false =>
              rw [hs, hc] at hdup
              simp at hdup
    · intro hacc
      cases hs : st.seenIds.contains c.name with
      | true =>
          simp [Reddit.addComment, hne,
            show c.name ∈ st.seenIds by simpa using hs] at hacc
      | false =>
          cases hc : st.seenContent.contains (Reddit.commentContentKey c) with
          | true =>
              simp [Reddit.addComment, hne,
                show c.name ∉ st.seenIds by simpa using hs,
                show Reddit.commentContentKey c ∈ st.seenContent by simpa using hc] at hacc
          | false =>
              cases hrel : Reddit.isRelevant cfg c.body "" c.subreddit (some c.permalink) with
              | false =>
                  simp [Reddit.addComment, hne,
                    show c.name ∉ st.seenIds by simpa using hs,
                    show Reddit.commentContentKey c ∉ st.seenContent by simpa using hc,
                    hrel] at hacc
              | true =>
                  simp [Reddit.addComment, hne,
                    show c.name ∉ st.seenIds by simpa using hs,
                    show Reddit.commentContentKey c ∉ st.seenContent by simpa using hc,
                    hrel]
  · intro knownIds st review hne
    constructor
    · intro hdup
      cases hk : knownIds.contains review.id with
      | true =>
          simp [PlayStore.processApiReview, hne,
            show review.id ∈ knownIds by simpa using hk]
      | false =>
          cases ha : (st.allReviews.map Prod.fst).contains review.id with
          | true =>
              simp [PlayStore.processApiReview, hne,
                show review.id ∉ knownIds by simpa using hk,
                show review.id ∈ st.allReviews.map Prod.fst by simpa using ha]
          | false =>
              rw [hk, ha] at hdup
              simp at hdup
    · intro hk ha
      simp [PlayStore.processApiReview, hne,
        show review.id ∉ knownIds by simpa using hk,
        show review.id ∉ st.allReviews.map Prod.fst by simpa using ha]

/-- Witness for C5: a duplicate native id is rejected and counted, and a
fresh relevant item is accepted with both keys recorded. -/
theorem C5_dedup_ledger_witness :
    ((Reddit.addPost defaultConfig 0 Fixtures.dupIdState Fixtures.samplePost).2 = false ∧
      (Reddit.addPost defaultConfig 0 Fixtures.dupIdState Fixtures.samplePost).1.buffer
        = Fixtures.dupIdState.buffer ∧
      (Reddit.addPost defaultConfig 0 Fixtures.dupIdState
          Fixtures.samplePost).1.stats.duplicatesSkipped
        = Fixtures.dupIdState.stats.duplicatesSkipped + 1 ∧
      (Reddit.addPost defaultConfig 0 Fixtures.dupIdState Fixtures.samplePost).1.seenIds
        = Fixtures.dupIdState.seenIds ∧
      (Reddit.addPost defaultConfig 0 Fixtures.dupIdState Fixtures.samplePost).1.seenContent
        = Fixtures.dupIdState.seenContent) ∧
    ((Reddit.addPost defaultConfig 0 Reddit.initialRedditState Fixtures.samplePost).1.seenIds
        = Reddit.initialRedditState.seenIds ++ [Fixtures.samplePost.name] ∧
      (Reddit.addPost defaultConfig 0 Reddit.initialRedditState
          Fixtures.samplePost).1.seenContent
        = Reddit.initialRedditState.seenContent
            ++ [Reddit.postContentKey Fixtures.samplePost] ∧
      (Reddit.addPost defaultConfig 0 Reddit.initialRedditState Fixtures.samplePost).1.buffer
        = Reddit.initialRedditState.buffer
            ++ [Reddit.transformPost 0 Fixtures.samplePost]) ∧
    ((PlayStore.processApiReview ["gp:review1"] ⟨[], 0, 0⟩
        Fixtures.samplePlayReview).allReviews = [] ∧
      (PlayStore.processApiReview ["gp:review1"] ⟨[], 0, 0⟩
        Fixtures.samplePlayReview).newInBatch = 0) := by
  refine ⟨?_, ?_, ?_⟩
  · exact (C5_dedup_ledger.1 defaultConfig 0 Fixtures.dupIdState Fixtures.samplePost
      (by decide)).1 (by decide)
  · exact (C5_dedup_ledger.1 defaultConfig 0 Reddit.initialRedditState Fixtures.samplePost
      (by decide)).2 (by decide)
  · exact (C5_dedup_ledger.2.2 ["gp:review1"] ⟨[], 0, 0⟩ Fixtures.samplePlayReview
      (by decide)).1 (by decide)

/-! ### Claim C1: helper lemmas -/

namespace Db

theorem mem_insertByDateDesc (r x : Review) (l : List Review) :
    r ∈ insertByDateDesc x l ↔ r = x ∨ r ∈ l := by
  induction l with
  | nil => simp [insertByDateDesc]
  | cons y ys ih =>
      simp only [insertByDateDesc]
      split
      · simp [List.mem_cons]
      · simp only [List.mem_cons, ih]
        tauto

theorem mem_sortByDateDesc (r : Review) (l : List Review) :
    r ∈ sortByDateDesc l ↔ r ∈ l := by
  induction l with
  | nil => simp [sortByDateDesc]
  | cons x xs ih =>
      simp only [sortByDateDesc, mem_insertByDateDesc, ih, List.mem_cons]

end Db

namespace AppStore

theorem newestFold_spec (l : List AppStoreReview) :
    ∀ a : ℕ, ∃ m, l.foldl newestStep (some a) = some m ∧ a ≤ m ∧
      (m = a ∨ m ∈ l.map (fun r => r.updated)) ∧ ∀ r ∈ l, r.updated ≤ m := by
  induction l with
  | nil =>
      intro a
      exact ⟨a, rfl, le_refl a, Or.inl rfl, by intro r hr; cases hr⟩
  | cons r l ih =>
      intro a
      by_cases hgt : r.updated > a
      · obtain ⟨m, hm, ham, hmem, hall⟩ := ih r.updated
        refine ⟨m, ?_, le_trans (le_of_lt hgt) ham, ?_, ?_⟩
        · show List.foldl newestStep (newestStep (some a) r) l = some m
          have : newestStep (some a) r = some r.updated := by
            simp [newestStep, hgt]
          rw [this]
          exact hm
        · rcases hmem with h | h
          · exact Or.inr (by simp [h])
          · exact Or.inr (by simp only [List.map_cons, List.mem_cons]; exact Or.inr h)
        · intro x hx
          rcases List.mem_cons.mp hx with h | h
          · rw [h]; exact ham
          · exact hall x h
      · obtain ⟨m, hm, ham, hmem, hall⟩ := ih a
        refine ⟨m, ?_, ham, ?_, ?_⟩
        · show List.foldl newestStep (newestStep (some a) r) l = some m
          have : newestStep (some a) r = some a := by
            simp [newestStep, hgt]
          rw [this]
          exact hm
        · rcases hmem with h | h
          · exact Or.inl h
          · exact Or.inr (by simp only [List.map_cons, List.mem_cons]; exact Or.inr h)
        · intro x hx
          rcases List.mem_cons.mp hx with h | h
          · rw [h]
            push_neg at hgt
            exact le_trans hgt ham
          · exact hall x h

theorem newestDateFound_spec (l : List AppStoreReview) (hne : l ≠ []) :
    ∃ m, newestDateFound l = some m ∧
      (∀ r ∈ l, r.updated ≤ m) ∧ m ∈ l.map (fun r => r.updated) := by
  cases l with
  | nil => exact absurd rfl hne
  | cons r l =>
      obtain ⟨m, hm, ham, hmem, hall⟩ := newestFold_spec l r.updated
      refine ⟨m, ?_, ?_, ?_⟩
      · show List.foldl newestStep (newestStep none r) l = some m
        exact hm
      · intro x hx
        rcases List.mem_cons.mp hx with h | h
        · rw [h]; exact ham
        · exact hall x h
      · rcases hmem with h | h
        · simp [h]
        · simp only [List.map_cons, List.mem_cons]
          exact Or.inr h

end AppStore

namespace PlayStore

theorem playNewestFold_spec (l : List PlayStoreReviewData)
    (hv : ∀ r ∈ l, r.date.isSome) :
    ∀ a : ℕ, ∃ m, l.foldl playNewestStep (some a) = some m ∧ a ≤ m ∧
      (m = a ∨ some m ∈ l.map (fun r => r.date)) ∧
      ∀ r ∈ l, ∀ t, r.date = some t → t ≤ m := by
  induction l with
  | nil =>
      intro a
      exact ⟨a, rfl, le_refl a, Or.inl rfl, by intro r hr; cases hr⟩
  | cons r l ih =>
      intro a
      have hv' : ∀ x ∈ l, x.date.isSome := fun x hx => hv x (List.mem_cons_of_mem r hx)
      obtain ⟨d, hd⟩ := Option.isSome_iff_exists.mp (hv r (List.mem_cons_self r l))
      by_cases hgt : d > a
      · obtain ⟨m, hm, ham, hmem, hall⟩ := ih hv' d
        refine ⟨m, ?_, le_trans (le_of_lt hgt) ham, ?_, ?_⟩
        · show List.foldl playNewestStep (playNewestStep (some a) r) l = some m
          have : playNewestStep (some a) r = some d := by
            simp [playNewestStep, hd, hgt]
          rw [this]
          exact hm
        · rcases hmem with h | h
          · exact Or.inr (by simp [h, hd.symm])
          · exact Or.inr (by simp only [List.map_cons, List.mem_cons]; exact Or.inr h)
        · intro x hx t ht
          rcases List.mem_cons.mp hx with h | h
          · rw [h] at ht
            rw [hd] at ht
            injection ht with ht'
            rw [← ht']
            exact ham
          · exact hall x h t ht
      · obtain ⟨m, hm, ham, hmem, hall⟩ := ih hv' a
        refine ⟨m, ?_, ham, ?_, ?_⟩
        · show List.foldl playNewestStep (playNewestStep (some a) r) l = some m
          have : playNewestStep (some a) r = some a := by
            simp [playNewestStep, hd, hgt]
          rw [this]
          exact hm
        · rcases hmem with h | h
          · exact Or.inl h
          · exact Or.inr (by simp only [List.map_cons, List.mem_cons]; exact Or.inr h)
        · intro x hx t ht
          rcases List.mem_cons.mp hx with h | h
          · rw [h] at ht
            rw [hd] at ht
            injection ht with ht'
            rw [← ht']
            push_neg at hgt
            exact le_trans hgt ham
          · exact hall x h t ht

theorem playNewestDate_spec (l : List PlayStoreReviewData) (hne : l ≠ [])
    (hv : ∀ r ∈ l, r.date.isSome) :
    ∃ m, playNewestDate l = some m ∧
      (∀ r ∈ l, ∀ t, r.date = some t → t ≤ m) ∧
      some m ∈ l.map (fun r => r.date) := by
  cases l with
  | nil => exact absurd rfl hne
  | cons r l =>
      have hv' : ∀ x ∈ l, x.date.isSome := fun x hx => hv x (List.mem_cons_of_mem r hx)
      obtain ⟨d, hd⟩ := Option.isSome_iff_exists.mp (hv r (List.mem_cons_self r l))
      obtain ⟨m, hm, ham, hmem, hall⟩ := playNewestFold_spec l hv' d
      refine ⟨m, ?_, ?_, ?_⟩
      · show List.foldl playNewestStep (playNewestStep none r) l = some m
        have : playNewestStep none r = some d := by
          simp [playNewestStep, hd]
        rw [this]
        exact hm
      · intro x hx t ht
        rcases List.mem_cons.mp hx with h | h
        · rw [h] at ht
          rw [hd] at ht
          injection ht with ht'
          rw [← ht']
          exact ham
        · exact hall x h t ht
      · rcases hmem with h | h
        · simp [h, hd.symm]
        · simp only [List.map_cons, List.mem_cons]
          exact Or.inr h

end PlayStore

/-! ### Claim C1 -/

/-- C1 counterexample: a run that accepts zero items while a cursor
pre-exists leaves the cursor row completely untouched — in particular
`last_scraped_at` stays at its old value (100) instead of advancing to
the current time (200), for both marketplace scrapers. -/
theorem C1_zero_accepted_counterexample :
    AppStore.appStoreRunEnd 200 (some Fixtures.sampleCursor) [] = some Fixtures.sampleCursor ∧
      PlayStore.playStoreRunEnd 200 (some Fixtures.sampleCursor) [] = some Fixtures.sampleCursor ∧
      Fixtures.sampleCursor.last_scraped_at ≠ 200 := by
  refine ⟨by decide, by decide, by decide⟩

/-- C1 (amended): if at least one item was accepted (and, when a watermark
pre-exists, the accepted items are newer than it, as the incremental
fetch filters guarantee; for the Play Store, accepted items carrying
valid dates), the run upserts the cursor: `last_item_date` becomes the
maximum timestamp among accepted items, `last_scraped_at` becomes the
current time, and the recent-identifier list is replaced by at most N
(100 / 50) identifiers of accepted items.  If zero items were accepted
and a cursor pre-existed, the cursor row is left entirely untouched —
`last_item_date` does not regress, but `last_scraped_at` does **not**
advance either. -/
theorem C1_cursor_update_amended :
    (∀ (now : ℕ) (cursor : Option Db.ScrapeCursor)
        (collected : List AppStore.AppStoreReview),
        collected ≠ [] →
        (∀ r ∈ collected, ∀ cut,
          cursor.bind (fun c => c.last_item_date) = some cut → cut < r.updated) →
        ∃ d recent,
          AppStore.appStoreRunEnd now cursor collected
              = some (Db.updateScrapeCursor "appstore" now (some d) (some recent)) ∧
            (∀ r ∈ collected, r.updated ≤ d) ∧
            d ∈ collected.map (fun r => r.updated) ∧
            recent.length ≤ 100 ∧
            (∀ i ∈ recent, i ∈ collected.map (fun r => r.id))) ∧
    (∀ (now : ℕ) (c : Db.ScrapeCursor),
        AppStore.appStoreRunEnd now (some c) [] = some c) ∧
    (∀ (now : ℕ) (cursor : Option Db.ScrapeCursor)
        (collected : List PlayStore.PlayStoreReviewData),
        collected ≠ [] →
        (∀ r ∈ collected, r.date.isSome) →
        ∃ d recent,
          PlayStore.playStoreRunEnd now cursor collected
              = some (Db.updateScrapeCursor "playstore" now (some d) (some recent)) ∧
            (∀ r ∈ collected, ∀ t, r.date = some t → t ≤ d) ∧
            some d ∈ collected.map (fun r => r.date) ∧
            recent.length ≤ 50 ∧
            (∀ i ∈ recent, i ∈ collected.map (fun r => r.id))) ∧
    (∀ (now : ℕ) (c : Db.ScrapeCursor),
        PlayStore.playStoreRunEnd now (some c) [] = some c) := by
  refine ⟨?_, ?_, ?_, ?_⟩
  · intro now cursor collected hne hcut
    obtain ⟨m, hm, hmax, hmem⟩ := AppStore.newestDateFound_spec collected hne
    have hadv : ∀ cut, cursor.bind (fun c => c.last_item_date) = some cut → cut < m := by
      intro cut hcd
      obtain ⟨r, hr, hrm⟩ := List.mem_map.mp hmem
      have := hcut r hr cut hcd
      rw [hrm] at this
      exact this
    refine ⟨m, ((Db.sortByDateDesc (collected.map AppStore.appStoreToReview)).take 100).map
      (fun rv => rv.external_id), ?_, hmax, hmem, ?_, ?_⟩
    · simp only [AppStore.appStoreRunEnd, hm]
      cases hcd : cursor.bind (fun c => c.last_item_date) with
      | none => simp
      | some cut =>
          have := hadv cut hcd
          simp [this]
    · rw [List.length_map]
      exact List.length_take_le _ _
    · intro i hi
      obtain ⟨rv, hrvtake, hrvi⟩ := List.mem_map.mp hi
      have hrvsort := List.take_subset _ _ hrvtake
      have hrvmap := (Db.mem_sortByDateDesc rv _).mp hrvsort
      obtain ⟨r, hr, hrrv⟩ := List.mem_map.mp hrvmap
      refine List.mem_map.mpr ⟨r, hr, ?_⟩
      rw [← hrvi, ← hrrv]
      rfl
  · intro now c
    simp [AppStore.appStoreRunEnd, AppStore.newestDateFound]
  · intro now cursor collected hne hv
    obtain ⟨m, hm, hmax, hmem⟩ := PlayStore.playNewestDate_spec collected hne hv
    have hlen : (collected.map (PlayStore.playToReview now)).length > 0 := by
      rw [List.length_map]
      exact List.length_pos.mpr hne
    refine ⟨m, ((Db.sortByDateDesc (collected.map (PlayStore.playToReview now))).take 50).map
      (fun rv => rv.external_id), ?_, hmax, hmem, ?_, ?_⟩
    · simp only [PlayStore.playStoreRunEnd, hm]
      rw [if_pos hlen]
    · rw [List.length_map]
      exact List.length_take_le _ _
    · intro i hi
      obtain ⟨rv, hrvtake, hrvi⟩ := List.mem_map.mp hi
      have hrvsort := List.take_subset _ _ hrvtake
      have hrvmap := (Db.mem_sortByDateDesc rv _).mp hrvsort
      obtain ⟨r, hr, hrrv⟩ := List.mem_map.mp hrvmap
      refine List.mem_map.mpr ⟨r, hr, ?_⟩
      rw [← hrvi, ← hrrv]
      rfl
  · intro now c
    simp [PlayStore.playStoreRunEnd]

/-- Witness for the amended C1 at singleton runs with no prior cursor. -/
theorem C1_cursor_update_amended_witness :
    (∃ d recent,
      AppStore.appStoreRunEnd 200 none [Fixtures.sampleAppReview]
          = some (Db.updateScrapeCursor "appstore" 200 (some d) (some recent)) ∧
        (∀ r ∈ [Fixtures.sampleAppReview], r.updated ≤ d) ∧
        d ∈ [Fixtures.sampleAppReview].map (fun r => r.updated) ∧
        recent.length ≤ 100 ∧
        (∀ i ∈ recent, i ∈ [Fixtures.sampleAppReview].map (fun r => r.id))) ∧
    (∃ d recent,
      PlayStore.playStoreRunEnd 200 none [Fixtures.samplePlayReview]
          = some (Db.updateScrapeCursor "playstore" 200 (some d) (some recent)) ∧
        (∀ r ∈ [Fixtures.samplePlayReview], ∀ t, r.date = some t → t ≤ d) ∧
        some d ∈ [Fixtures.samplePlayReview].map (fun r => r.date) ∧
        recent.length ≤ 50 ∧
        (∀ i ∈ recent, i ∈ [Fixtures.samplePlayReview].map (fun r => r.id))) := by
  constructor
  · exact C1_cursor_update_amended.1 200 none [Fixtures.sampleAppReview]
      (by decide) (by intro r hr cut h; cases h)
  · exact C1_cursor_update_amended.2.2.1 200 none [Fixtures.samplePlayReview]
      (by decide) (by decide)

/-! ### Claim C4: helper lemmas -/

namespace AppStore

/-- The page scan preserves "all accepted reviews are newer than the
cutoff". -/
theorem scanFold_accepted_gt (now : ℕ) (country : String) (cut : ℕ) :
    ∀ (entries : List FeedEntry) (st : PageScan),
      (∀ r ∈ st.accepted, cut < r.updated) →
      ∀ r ∈ (entries.foldl (scanStep now country (some cut)) st).accepted,
        cut < r.updated := by
  intro entries
  induction entries with
  | nil => intro st hst; exact hst
  | cons e es ih =>
      intro st hst
      apply ih
      intro r hr
      simp only [scanStep] at hr
      by_cases hm : e.imName
      · rw [if_pos hm] at hr
        exact hst r hr
      · rw [if_neg hm] at hr
        by_cases hsk : (e.updated.getD now ≤ cut)
        · simp [hsk] at hr
          exact hst r hr
        · simp [hsk] at hr
          rcases hr with h | h
          · exact hst r h
          · subst h
            have hupd : (entryToReview now country e).updated = e.updated.getD now := rfl
            rw [hupd]
            exact lt_of_not_le hsk

/-- If every non-metadata entry of a page is at or below the cutoff, the
scan keeps the accumulator's accepted list and review count unchanged. -/
theorem scanFold_all_stale (now : ℕ) (country : String) (cut : ℕ) :
    ∀ (entries : List FeedEntry),
      (∀ e ∈ entries, e.imName = false → e.updated.getD now ≤ cut) →
      ∀ st : PageScan,
        (entries.foldl (scanStep now country (some cut)) st).accepted = st.accepted ∧
        (entries.foldl (scanStep now country (some cut)) st).pageReviewCount
          = st.pageReviewCount := by
  intro entries
  induction entries with
  | nil => intro _ st; exact ⟨rfl, rfl⟩
  | cons e es ih =>
      intro hall st
      have hes : ∀ x ∈ es, x.imName = false → x.updated.getD now ≤ cut :=
        fun x hx => hall x (List.mem_cons_of_mem e hx)
      have hstep : (scanStep now country (some cut) st e).accepted = st.accepted ∧
          (scanStep now country (some cut) st e).pageReviewCount = st.pageReviewCount := by
        simp only [scanStep]
        by_cases hm : e.imName
        · rw [if_pos hm]
          exact ⟨rfl, rfl⟩
        · rw [if_neg hm]
          have hle : e.updated.getD now ≤ cut :=
            hall e (List.mem_cons_self e es) (by simpa using hm)
          simp [hle]
      have := ih hes (scanStep now country (some cut) st e)
      refine ⟨?_, ?_⟩
      · show (es.foldl (scanStep now country (some cut))
            (scanStep now country (some cut) st e)).accepted = st.accepted
        rw [this.1, hstep.1]
      · show (es.foldl (scanStep now country (some cut))
            (scanStep now country (some cut) st e)).pageReviewCount = st.pageReviewCount
        rw [this.2, hstep.2]

/-- Never more pages requested than the fuel allows. -/
theorem fetchPagesGo_count_le (now : ℕ) (country : String) (cutoff : Option ℕ) :
    ∀ (fuel : ℕ) (pages : List (List FeedEntry)),
      (fetchPagesGo now country cutoff fuel pages).2 ≤ fuel := by
  intro fuel
  induction fuel with
  | zero =>
      intro pages
      cases pages with
      | nil => simp [fetchPagesGo]
      | cons pg rest => simp [fetchPagesGo]
  | succ f ih =>
      intro pages
      cases pages with
      | nil => simp [fetchPagesGo]
      | cons pg rest =>
          simp only [fetchPagesGo]
          split
          · simp
          · split
            · simp
            · simpa using Nat.succ_le_succ (ih rest)

/-- Early termination: if every non-metadata entry of page `k` is at or
below the cutoff, at most `k + 1` pages are requested. -/
theorem fetchPagesGo_stops (now : ℕ) (country : String) (T0 : ℕ) :
    ∀ (k fuel : ℕ) (pages : List (List FeedEntry)),
      k < fuel → k < pages.length →
      (∀ e ∈ pages.getD k [], e.imName = false → e.updated.getD now ≤ T0) →
      (fetchPagesGo now country (some T0) fuel pages).2 ≤ k + 1 := by
  intro k
  induction k with
  | zero =>
      intro fuel pages hf hp hall
      cases pages with
      | nil => cases hp
      | cons pg rest =>
          cases fuel with
          | zero => cases hf
          | succ f =>
              have hz := scanFold_all_stale now country T0 pg (by simpa using hall)
                ⟨[], 0, 0⟩
              simp only [fetchPagesGo, scanEntries]
              rw [hz.2]
              simp
  | succ k ih =>
      intro fuel pages hf hp hall
      cases pages with
      | nil => cases hp
      | cons pg rest =>
          cases fuel with
          | zero => cases hf
          | succ f =>
              simp only [fetchPagesGo]
              split
              · simp
              · split
                · simp
                · have := ih f rest (Nat.lt_of_succ_lt_succ hf)
                    (Nat.lt_of_succ_lt_succ hp) (by simpa using hall)
                  simpa using Nat.succ_le_succ this

/-- No emitted review is at or below the cutoff. -/
theorem fetchPagesGo_emitted_gt (now : ℕ) (country : String) (T0 : ℕ) :
    ∀ (fuel : ℕ) (pages : List (List FeedEntry)),
      ∀ r ∈ (fetchPagesGo now country (some T0) fuel pages).1, T0 < r.updated := by
  intro fuel
  induction fuel with
  | zero =>
      intro pages r hr
      cases pages with
      | nil => simp [fetchPagesGo] at hr
      | cons pg rest => simp [fetchPagesGo] at hr
  | succ f ih =>
      intro pages r hr
      cases pages with
      | nil => simp [fetchPagesGo] at hr
      | cons pg rest =>
          have hpg : ∀ x ∈ (scanEntries now country (some T0) pg).accepted,
              T0 < x.updated :=
            scanFold_accepted_gt now country T0 pg ⟨[], 0, 0⟩ (by intro x hx; cases hx)
          simp only [fetchPagesGo] at hr
          split at hr
          · exact hpg r hr
          · split at hr
            · exact hpg r hr
            · rcases List.mem_append.mp hr with h | h
              · exact hpg r h
              · exact ih rest r h

end AppStore

/-- C4: for an incremental fetch with watermark `T0`, if every
(non-metadata) item of page `k` has timestamp at most `T0`, the RSS
pagination loop requests at most `k + 1` pages — no later page of the
query — and no item with timestamp ≤ `T0` is ever emitted. -/
theorem C4_pagination_early_termination (now : ℕ) (country : String) (T0 k : ℕ)
    (pages : List (List AppStore.FeedEntry))
    (hk : k < pages.length)
    (hstale : ∀ e ∈ pages.getD k [], e.imName = false → e.updated.getD now ≤ T0) :
    (AppStore.fetchAllPagesForCountry now country (some T0) pages).2 ≤ k + 1 ∧
      ∀ r ∈ (AppStore.fetchAllPagesForCountry now country (some T0) pages).1,
        T0 < r.updated := by
  constructor
  · by_cases hk10 : k < 10
    · exact AppStore.fetchPagesGo_stops now country T0 k 10 pages hk10 hk hstale
    · have h10 := AppStore.fetchPagesGo_count_le now country (some T0) 10 pages
      have : (10 : ℕ) ≤ k + 1 := by omega
      exact le_trans h10 this
  · exact AppStore.fetchPagesGo_emitted_gt now country T0 10 pages

/-- Witness for C4: a two-page feed where the second page is entirely at
or below the watermark. -/
theorem C4_pagination_early_termination_witness :
    (AppStore.fetchAllPagesForCountry 1000 "us" (some 50)
        [[Fixtures.freshEntry 100 "a"], [Fixtures.freshEntry 40 "b"]]).2 ≤ 2 ∧
      ∀ r ∈ (AppStore.fetchAllPagesForCountry 1000 "us" (some 50)
          [[Fixtures.freshEntry 100 "a"], [Fixtures.freshEntry 40 "b"]]).1,
        50 < r.updated :=
  C4_pagination_early_termination 1000 "us" 50 1
    [[Fixtures.freshEntry 100 "a"], [Fixtures.freshEntry 40 "b"]]
    (by decide) (by decide)

/-! ### Claims C7 and C8: helper lemmas on the orchestrator model -/

namespace Orchestrate

/-- The phase loop refines its specification mirrors: the flushed items
are exactly the accepted items, the failure status and error list mirror
the first thrown error, and the trace always ends with a flush of the
full buffer followed by the end-of-run log whose status reflects the
failure. -/
theorem runGo_spec (maxD : ℕ) :
    ∀ (phases : List PhaseSpec) (now i : ℕ) (buffer : List Reddit.Mention)
      (trace : List Ev),
      (runGo maxD now i buffer trace phases).flushed
          = buffer ++ specAccepted maxD now phases ∧
        (runGo maxD now i buffer trace phases).failed
          = (specFailure maxD now phases).isSome ∧
        (runGo maxD now i buffer trace phases).errors
          = (specFailure maxD now phases).toList ∧
        ∃ t, (runGo maxD now i buffer trace phases).trace
          = trace ++ t
              ++ [Ev.flushEv (buffer ++ specAccepted maxD now phases).length,
                Ev.logEndEv (specFailure maxD now phases).isNone] := by
  intro phases
  induction phases with
  | nil =>
      intro now i buffer trace
      refine ⟨by simp [runGo, specAccepted], by simp [runGo, specFailure],
        by simp [runGo, specFailure], ⟨[], by simp [runGo, specAccepted, specFailure]⟩⟩
  | cons p rest ih =>
      intro now i buffer trace
      by_cases ht : maxD < now
      · simp only [runGo, specAccepted, specFailure, if_pos ht]
        obtain ⟨f1, f2, f3, t, htr⟩ := ih now (i + 1) buffer (trace ++ [Ev.phaseSkip i])
        refine ⟨f1, f2, f3, ⟨[Ev.phaseSkip i] ++ t, ?_⟩⟩
        rw [htr]
        simp [List.append_assoc]
      · cases herr : p.err with
        | some e =>
            simp only [runGo, specAccepted, specFailure, if_neg ht, herr]
            refine ⟨by simp, by simp, by simp,
              ⟨[Ev.phaseRun i], by simp [List.append_assoc]⟩⟩
        | none =>
            simp only [runGo, specAccepted, specFailure, if_neg ht, herr]
            obtain ⟨f1, f2, f3, t, htr⟩ :=
              ih (now + p.duration) (i + 1) (buffer ++ p.items) (trace ++ [Ev.phaseRun i])
            refine ⟨?_, f2, f3, ⟨[Ev.phaseRun i] ++ t, ?_⟩⟩
            · rw [f1]
              simp [List.append_assoc]
            · rw [htr]
              simp [List.append_assoc]

/-- When no phase throws, every phase index is visited: it appears in the
trace either as run or as skipped. -/
theorem runGo_visits (maxD : ℕ) :
    ∀ (phases : List PhaseSpec) (now i : ℕ) (buffer : List Reddit.Mention)
      (trace : List Ev),
      specFailure maxD now phases = none →
      ∀ j, j < phases.length →
        Ev.phaseRun (i + j) ∈ (runGo maxD now i buffer trace phases).trace ∨
        Ev.phaseSkip (i + j) ∈ (runGo maxD now i buffer trace phases).trace := by
  intro phases
  induction phases with
  | nil =>
      intro now i buffer trace _ j hj
      exact absurd hj (Nat.not_lt_zero j)
  | cons p rest ih =>
      intro now i buffer trace hok j hj
      by_cases ht : maxD < now
      · have hok' : specFailure maxD now rest = none := by
          simpa [specFailure, if_pos ht] using hok
        cases j with
        | zero =>
            obtain ⟨_, _, _, t, htr⟩ :=
              runGo_spec maxD rest now (i + 1) buffer (trace ++ [Ev.phaseSkip i])
            right
            simp only [runGo, if_pos ht]
            rw [htr]
            simp
        | succ j' =>
            have hidx : i + (j' + 1) = (i + 1) + j' := by omega
            have := ih now (i + 1) buffer (trace ++ [Ev.phaseSkip i]) hok' j'
              (Nat.lt_of_succ_lt_succ hj)
            simp only [runGo, if_pos ht]
            rw [hidx]
            exact this
      · cases herr : p.err with
        | some e =>
            exfalso
            rw [specFailure, if_neg ht, herr] at hok
            cases hok
        | none =>
            have hok' : specFailure maxD (now + p.duration) rest = none := by
              rw [specFailure, if_neg ht, herr] at hok
              exact hok
            cases j with
            | zero =>
                obtain ⟨_, _, _, t, htr⟩ := runGo_spec maxD rest (now + p.duration) (i + 1)
                  (buffer ++ p.items) (trace ++ [Ev.phaseRun i])
                left
                simp only [runGo, if_neg ht, herr]
                rw [htr]
                simp
            | succ j' =>
                have hidx : i + (j' + 1) = (i + 1) + j' := by omega
                have := ih (now + p.duration) (i + 1) (buffer ++ p.items)
                  (trace ++ [Ev.phaseRun i]) hok' j' (Nat.lt_of_succ_lt_succ hj)
                simp only [runGo, if_neg ht, herr]
                rw [hidx]
                exact this

end Orchestrate

/-! ### Claim C7 -/

/-- C7: for every run of the orchestrator model, all items buffered by the
executed phases are flushed — also when a phase throws; on an uncaught
error the run is marked failed with the error recorded, and the trace
shows the best-effort flush happening before the failure log; the run
returns a value rather than propagating, and the scheduler wrapper's
state is restored whatever the job's outcome, so the scheduler survives. -/
theorem C7_uncaught_error_flush_and_no_crash :
    (∀ (maxD : ℕ) (phases : List Orchestrate.PhaseSpec),
        (Orchestrate.redditRunModel maxD phases).flushed
          = Orchestrate.specAccepted maxD 0 phases) ∧
    (∀ (maxD : ℕ) (phases : List Orchestrate.PhaseSpec) (e : String),
        Orchestrate.specFailure maxD 0 phases = some e →
          (Orchestrate.redditRunModel maxD phases).failed = true ∧
          (Orchestrate.redditRunModel maxD phases).errors = [e] ∧
          ∃ t, (Orchestrate.redditRunModel maxD phases).trace
            = t ++ [Orchestrate.Ev.flushEv
                  (Orchestrate.specAccepted maxD 0 phases).length,
                Orchestrate.Ev.logEndEv false]) ∧
    (∀ (running : List String) (name : String) (outcome : Except String Unit),
        running.contains name = false →
          (Scheduler.schedulerTick running name outcome).1 = running) := by
  refine ⟨?_, ?_, ?_⟩
  · intro maxD phases
    have := (Orchestrate.runGo_spec maxD phases 0 0 [] []).1
    simpa [Orchestrate.redditRunModel] using this
  · intro maxD phases e hfail
    obtain ⟨f1, f2, f3, t, htr⟩ := Orchestrate.runGo_spec maxD phases 0 0 [] []
    refine ⟨?_, ?_, ⟨t, ?_⟩⟩
    · show (Orchestrate.redditRunModel maxD phases).failed = true
      rw [Orchestrate.redditRunModel, f2, hfail]
      rfl
    · show (Orchestrate.redditRunModel maxD phases).errors = [e]
      rw [Orchestrate.redditRunModel, f3, hfail]
      rfl
    · show (Orchestrate.redditRunModel maxD phases).trace = _
      rw [Orchestrate.redditRunModel, htr, hfail]
      simp
  · intro running name outcome hni
    have hnm : name ∉ running := by simpa using hni
    have hfil : running.filter (fun n => n != name) = running := by
      apply List.filter_eq_self.mpr
      intro a ha
      simp only [bne_iff_ne, ne_eq]
      intro h
      exact hnm (h ▸ ha)
    simp only [Scheduler.schedulerTick, hni, Bool.false_eq_true, if_false]
    cases outcome with
    | ok u => simp [List.filter_append, hfil]
    | error e => simp [List.filter_append, hfil]

/-- Witness for C7: a failing phase with one buffered item, and a
scheduler tick over a failing job. -/
theorem C7_uncaught_error_flush_and_no_crash_witness :
    (Orchestrate.redditRunModel 1000 Fixtures.failingPhases).flushed
        = Orchestrate.specAccepted 1000 0 Fixtures.failingPhases ∧
      (Orchestrate.redditRunModel 1000 Fixtures.failingPhases).failed = true ∧
      (Orchestrate.redditRunModel 1000 Fixtures.failingPhases).errors = ["boom"] ∧
      (∃ t, (Orchestrate.redditRunModel 1000 Fixtures.failingPhases).trace
        = t ++ [Orchestrate.Ev.flushEv
              (Orchestrate.specAccepted 1000 0 Fixtures.failingPhases).length,
            Orchestrate.Ev.logEndEv false]) ∧
      (Scheduler.schedulerTick ["Play Store Scraper"] "Reddit Scraper"
          (Except.error "boom")).1 = ["Play Store Scraper"] := by
  have h1 := C7_uncaught_error_flush_and_no_crash.1 1000 Fixtures.failingPhases
  have h2 := C7_uncaught_error_flush_and_no_crash.2.1 1000 Fixtures.failingPhases "boom"
    (by decide)
  have h3 := C7_uncaught_error_flush_and_no_crash.2.2 ["Play Store Scraper"]
    "Reddit Scraper" (Except.error "boom") (by decide)
  exact ⟨h1, h2.1, h2.2.1, h2.2.2, h3⟩

/-! ### Claim C8 -/

/-- C8 counterexample: with a generous deadline, phase 0 throws; phase 1
is then neither run nor skip-visited — orchestration does **not** proceed
to the next phase; instead the run is aborted and marked failed,
refuting "a failure inside any single phase is caught ... after which
orchestration proceeds to the next phase". -/
theorem C8_failure_aborts_counterexample :
    Orchestrate.Ev.phaseRun 1
        ∉ (Orchestrate.redditRunModel 1000 Fixtures.failingPhases).trace ∧
      Orchestrate.Ev.phaseSkip 1
        ∉ (Orchestrate.redditRunModel 1000 Fixtures.failingPhases).trace ∧
      (Orchestrate.redditRunModel 1000 Fixtures.failingPhases).failed = true := by
  refine ⟨by decide, by decide, by decide⟩

/-- C8 (amended): each phase is skipped when the wall-clock deadline has
passed at its start (the skipped phase's body has no effect at all: any
other phase body in its place yields the same run); but an exception
thrown inside a phase is caught at the **run** level, not the phase
boundary: the remaining phases are never examined, the buffered items
are flushed and the run is marked failed; when no phase throws, every
phase boundary is visited (run or skipped). -/
theorem C8_phase_skip_and_run_level_abort_amended :
    (∀ (maxD now i : ℕ) (buffer : List Reddit.Mention)
        (trace : List Orchestrate.Ev) (p q : Orchestrate.PhaseSpec)
        (rest : List Orchestrate.PhaseSpec),
        maxD < now →
        Orchestrate.runGo maxD now i buffer trace (p :: rest)
          = Orchestrate.runGo maxD now i buffer trace (q :: rest)) ∧
    (∀ (maxD now i : ℕ) (buffer : List Reddit.Mention)
        (trace : List Orchestrate.Ev) (p : Orchestrate.PhaseSpec)
        (rest rest' : List Orchestrate.PhaseSpec) (e : String),
        ¬ maxD < now → p.err = some e →
        Orchestrate.runGo maxD now i buffer trace (p :: rest)
            = Orchestrate.runGo maxD now i buffer trace (p :: rest') ∧
          (Orchestrate.runGo maxD now i buffer trace (p :: rest)).failed = true ∧
          (Orchestrate.runGo maxD now i buffer trace (p :: rest)).flushed
            = buffer ++ p.items) ∧
    (∀ (maxD : ℕ) (phases : List Orchestrate.PhaseSpec) (i : ℕ),
        i < phases.length →
        Orchestrate.specFailure maxD 0 phases = none →
        Orchestrate.Ev.phaseRun i ∈ (Orchestrate.redditRunModel maxD phases).trace ∨
          Orchestrate.Ev.phaseSkip i
            ∈ (Orchestrate.redditRunModel maxD phases).trace) := by
  refine ⟨?_, ?_, ?_⟩
  · intro maxD now i buffer trace p q rest ht
    simp only [Orchestrate.runGo, if_pos ht]
  · intro maxD now i buffer trace p rest rest' e ht herr
    refine ⟨?_, ?_, ?_⟩
    · simp only [Orchestrate.runGo, if_neg ht, herr]
    · simp only [Orchestrate.runGo, if_neg ht, herr]
    · simp only [Orchestrate.runGo, if_neg ht, herr]
  · intro maxD phases i hi hok
    have := Orchestrate.runGo_visits maxD phases 0 0 [] [] hok i hi
    simpa [Orchestrate.redditRunModel] using this

/-- Witness for the amended C8 at concrete phase lists. -/
theorem C8_phase_skip_and_run_level_abort_amended_witness :
    (Orchestrate.runGo 10 20 0 [] []
        [{ duration := 5, items := [Fixtures.sampleMention], err := some "x" }]
      = Orchestrate.runGo 10 20 0 [] []
        [{ duration := 7, items := [], err := none }]) ∧
    ((Orchestrate.runGo 1000 0 0 [] [] Fixtures.failingPhases
        = Orchestrate.runGo 1000 0 0 [] [] (Fixtures.failingPhases.take 1)) ∧
      (Orchestrate.runGo 1000 0 0 [] [] Fixtures.failingPhases).failed = true ∧
      (Orchestrate.runGo 1000 0 0 [] [] Fixtures.failingPhases).flushed
        = [] ++ [Fixtures.sampleMention]) ∧
    (Orchestrate.Ev.phaseRun 0
        ∈ (Orchestrate.redditRunModel 1000
          [{ duration := 5, items := [], err := none }]).trace ∨
      Orchestrate.Ev.phaseSkip 0
        ∈ (Orchestrate.redditRunModel 1000
          [{ duration := 5, items := [], err := none }]).trace) := by
  refine ⟨?_, ?_, ?_⟩
  · exact C8_phase_skip_and_run_level_abort_amended.1 10 20 0 [] []
      { duration := 5, items := [Fixtures.sampleMention], err := some "x" }
      { duration := 7, items := [], err := none } [] (by decide)
  · exact C8_phase_skip_and_run_level_abort_amended.2.1 1000 0 0 [] []
      { duration := 5, items := [Fixtures.sampleMention], err := some "boom" }
      [{ duration := 5, items := [], err := none }] [] "boom" (by decide) rfl
  · exact C8_phase_skip_and_run_level_abort_amended.2.2 1000
      [{ duration := 5, items := [], err := none }] 0 (by decide) (by decide)

/-! ### Claim C9 -/

/-- C9: the sentiment scorer can return a score outside `[-1, 1]`,
contradicting both the claim and the code's own `// -1 to 1` interface
comment and "clamp it between -1 and 1 strictly" intent: the single-token
text `"fire"` (weight `3` in the repository's own `socialLexicon`) yields
`comparative = 3/1 = 3`, and the high-intensity adjustment only fires for
`|score| > 5`, so the returned score is exactly `3`. -/
theorem C9_sentiment_score_out_of_range :
    Sentiment.analyzeSentiment (some "fire")
        = { score := 3, label := Sentiment.Label.positive, confidence := 1 } ∧
      ¬ ((Sentiment.analyzeSentiment (some "fire")).score ≤ 1) := by
  have htok : Sentiment.tokenize "fire" = ["fire"] := by decide
  have hguard : (JsStr.isEmptyStr "fire" || JsStr.isEmptyStr (JsStr.trim "fire"))
      = false := by decide
  have hsc : Sentiment.lookupLex (Sentiment.socialLexicon ++ Sentiment.afinnFragment)
      "fire" = 3 := by decide
  have h : Sentiment.analyzeSentiment (some "fire")
      = { score := 3, label := Sentiment.Label.positive, confidence := 1 } := by
    simp only [Sentiment.analyzeSentiment, Sentiment.analyzeSentimentWith, hguard, htok]
    norm_num [hsc, Sentiment.roundTo3, Int.floor_eq_iff, Sentiment.SentimentResult.mk.injEq]
  refine ⟨h, ?_⟩
  rw [h]
  norm_num

/-! ### Claim C10 -/

/-- C10: for `null`/`undefined` input, the empty string, or whitespace-only
text, `analyzeSentiment` returns exactly score 0, label neutral,
confidence 0 — and it does so for **every** base lexicon, i.e. without
consulting the underlying analyzer at all. -/
theorem C10_blank_input_neutral :
    ∀ (base : List (String × Int)) (t : Option String),
      t = none ∨ (∃ s, t = some s ∧ JsStr.isEmptyStr (JsStr.trim s) = true) →
      Sentiment.analyzeSentimentWith base t
        = { score := 0, label := Sentiment.Label.neutral, confidence := 0 } := by
  intro base t h
  rcases h with rfl | ⟨s, rfl, hs⟩
  · rfl
  · simp [Sentiment.analyzeSentimentWith, hs]

/-- Witness for C10 on a whitespace-only text and the empty base lexicon. -/
theorem C10_blank_input_neutral_witness :
    Sentiment.analyzeSentimentWith [] (some "   ")
      = { score := 0, label := Sentiment.Label.neutral, confidence := 0 } :=
  C10_blank_input_neutral [] (some "   ") (Or.inr ⟨"   ", rfl, by decide⟩)

end Matiks
